import Mathlib

/-!
Verification development for the Mermaid validation/repair scripts of the
doc-diagram-gen repository (`framework/scripts/comprehensive_mermaid_validator.py`,
`framework/scripts/mermaid_pre_write_hook.py`, `framework/scripts/validate_mermaid.py`,
`framework/scripts/token_monitor.py`).

Python strings are modelled as `List Char` (`PyStr`).  Python string methods
(`strip`, `split`, `replace`, `count`, `in`, `startswith`, ...) are given
executable Lean counterparts below; the regular expressions used by the
scripts are each modelled by a dedicated scanner whose doc comment names the
regex it implements.  Whitespace is Lean's `Char.isWhitespace`
(space/tab/newline/CR), the ASCII fragment of Python's notion.  Scanners that
jump forward by a matched pattern's length recurse on an explicit fuel
argument initialised to the string length (an upper bound on the number of
steps), so that they are structurally recursive and kernel-computable.
-/

set_option maxRecDepth 100000

abbrev PyStr := List Char

/-- Whitespace test used throughout (models Python's default `strip`/`split` class). -/
def isWs (c : Char) : Bool := c.isWhitespace

/-- Word character, models regex `\w` (ASCII fragment). -/
def isWordChar (c : Char) : Bool := c.isAlphanum || c = '_'

/-- Python `s.lstrip()`. -/
def lstripWs (s : PyStr) : PyStr := s.dropWhile isWs

/-- Python `s.rstrip()`. -/
def rstripWs (s : PyStr) : PyStr := (s.reverse.dropWhile isWs).reverse

/-- Python `s.strip()`. -/
def pyStrip (s : PyStr) : PyStr := rstripWs (lstripWs s)

/-- Python `s.rstrip(chars)`: remove trailing characters drawn from `cs`. -/
def rstripSet (cs : List Char) (s : PyStr) : PyStr :=
  (s.reverse.dropWhile (fun c => c ∈ cs)).reverse

/-- Python `s.lstrip(chars)`. -/
def lstripSet (cs : List Char) (s : PyStr) : PyStr :=
  s.dropWhile (fun c => c ∈ cs)

/-- Python `s.strip(chars)`. -/
def stripSet (cs : List Char) (s : PyStr) : PyStr :=
  rstripSet cs (lstripSet cs s)

/-- Python `p in s` (substring test); for nonempty `p` this is the usual
substring relation, mirroring CPython semantics. -/
def containsSub (p : PyStr) : PyStr → Bool
  | [] => p.isEmpty
  | a :: s' => p.isPrefixOf (a :: s') || containsSub p s'

/-- Python `s.startswith(p)`. -/
def startsw (p s : PyStr) : Bool := p.isPrefixOf s

/-- Python `s.endswith(p)`. -/
def endsw (p s : PyStr) : Bool := p.isSuffixOf s

/-- Python `s.lower()` (ASCII fragment). -/
def pyLower (s : PyStr) : PyStr := s.map Char.toLower

/-- Fuel-indexed worker for `pyCount`. -/
def pyCountGo (p : PyStr) : Nat → PyStr → Nat
  | _, [] => 0
  | 0, _ => 0
  | fuel + 1, a :: s =>
    if p ≠ [] ∧ p.isPrefixOf (a :: s) then
      1 + pyCountGo p fuel (s.drop (p.length - 1))
    else
      pyCountGo p fuel s

/-- Python `s.count(p)` for nonempty `p`: number of non-overlapping
occurrences, scanning left to right. -/
def pyCount (p s : PyStr) : Nat := pyCountGo p s.length s

/-- Fuel-indexed worker for `repl`. -/
def replGo (t c : PyStr) : Nat → PyStr → PyStr
  | _, [] => []
  | 0, s => s
  | fuel + 1, a :: s =>
    if t ≠ [] ∧ t.isPrefixOf (a :: s) then
      c ++ replGo t c fuel (s.drop (t.length - 1))
    else
      a :: replGo t c fuel s

/-- Python `s.replace(t, c)` for nonempty `t`: replace every non-overlapping
occurrence, scanning left to right. -/
def repl (t c s : PyStr) : PyStr := replGo t c s.length s

/-- Fuel-indexed worker for `splitSub`. -/
def splitSubGo (t : PyStr) : Nat → PyStr → List PyStr
  | _, [] => [[]]
  | 0, s => [s]
  | fuel + 1, a :: s =>
    if t ≠ [] ∧ t.isPrefixOf (a :: s) then
      [] :: splitSubGo t fuel (s.drop (t.length - 1))
    else
      match splitSubGo t fuel s with
      | [] => [[a]]
      | r :: rs => (a :: r) :: rs

/-- Python `s.split(t)` for nonempty `t`. -/
def splitSub (t s : PyStr) : List PyStr := splitSubGo t s.length s

/-- Fuel-indexed worker for `pyWords`: skip whitespace, emit the next maximal
non-whitespace run, repeat. -/
def pyWordsGo : Nat → PyStr → List PyStr
  | _, [] => []
  | 0, _ => []
  | fuel + 1, s =>
    match s.dropWhile isWs with
    | [] => []
    | a :: s1 =>
      ((a :: s1).takeWhile (fun c => ! isWs c)) ::
        pyWordsGo fuel ((a :: s1).dropWhile (fun c => ! isWs c))

/-- Python `s.split()` (no argument): maximal runs of non-whitespace. -/
def pyWords (s : PyStr) : List PyStr := pyWordsGo s.length s

/-- Python `s.split('\n')`. -/
def splitLinesPy (s : PyStr) : List PyStr := splitSub ['\n'] s

/-- Python `'\n'.join(lines)`. -/
def joinLinesPy (ls : List PyStr) : PyStr := (ls.intersperse ['\n']).flatten

example : pyStrip (" ab c ".data) = "ab c".data := by decide
example : containsSub ("b".data) ("abc".data) = true := by decide
example : containsSub ("bd".data) ("abc".data) = false := by decide
example : pyCount ("aa".data) ("aaaa".data) = 2 := by decide
example : repl ("-->-->".data) ("-->".data) ("A-->-->B".data) = "A-->B".data := by decide
example : splitSub ("b".data) ("ab".data) = ["a".data, "".data] := by decide
example : splitLinesPy ("a\nb\n".data) = ["a".data, "b".data, "".data] := by decide
example : pyWords ("  a bc ".data) = ["a".data, "bc".data] := by decide
example : joinLinesPy ["a".data, "b".data] = "a\nb".data := by decide
example : rstripSet ['-', '>'] ("A -->".data) = "A ".data := by decide

/-! ## Regex scanners used by `comprehensive_mermaid_validator.py` -/

/-- Models `re.search(r'\d+\[', s) is not None`: some digit immediately
followed by `[` (a `\d+` run before `[` always ends in such a digit). -/
def hasDigitBracket : PyStr → Bool
  | a :: b :: r => (a.isDigit && b = '[') || hasDigitBracket (b :: r)
  | _ => false

/-- Models `re.match(r'(participant|actor)\s+(.+)', s)`, returning
`(group(1), group(2))`.  `\s+` is greedy; when everything after it would be
empty it backtracks one whitespace character, which `(.+)` then consumes. -/
def matchPartActor (s : PyStr) : Option (PyStr × PyStr) :=
  let go := fun (kw : PyStr) =>
    let rest := s.drop kw.length
    let b := rest.dropWhile isWs
    if rest.takeWhile isWs = [] then none
    else if hb : b ≠ [] then some (kw, b)
    else if h2 : rest.length ≥ 2 then
      some (kw, [rest.getLast (List.length_pos.mp (by omega))])
    else none
  if startsw ("participant".data) s then go ("participant".data)
  else if startsw ("actor".data) s then go ("actor".data)
  else none

/-- Models `re.search(r"\w'\w", s) is not None`. -/
def hasWordAposWord : PyStr → Bool
  | a :: b :: c :: r => (isWordChar a && b = '\'' && isWordChar c) || hasWordAposWord (b :: c :: r)
  | _ => false

/-! ## `MermaidDiagramError` and `ComprehensiveMermaidValidator` -/

/-- `MermaidDiagramError` of `comprehensive_mermaid_validator.py`. -/
structure MErr where
  line_number : Nat
  error_type : String
  description : String
  severity : String := "error"
deriving DecidableEq, Repr

namespace ComprehensiveMermaidValidator

/-- `VALID_DIAGRAM_TYPES`; a Python `set` in the source, modelled as a list in
the order written there (every use is order-insensitive up to the
`stateDiagram`/`stateDiagram-v2` shared prefix, which feeds only
`startswith('stateDiagram')` dispatches). -/
def VALID_DIAGRAM_TYPES : List PyStr :=
  ["graph".data, "flowchart".data, "sequenceDiagram".data, "classDiagram".data,
   "stateDiagram".data, "stateDiagram-v2".data, "erDiagram".data, "journey".data,
   "gantt".data, "pie".data, "quadrantChart".data, "requirementDiagram".data,
   "gitGraph".data, "mindmap".data, "timeline".data, "C4Context".data,
   "C4Container".data, "C4Component".data, "C4Deployment".data, "C4Dynamic".data,
   "sankey".data]

/-- `GRAPH_DIRECTIONS` (membership-only use, so list order is irrelevant). -/
def GRAPH_DIRECTIONS : List PyStr :=
  ["TB".data, "TD".data, "BT".data, "RL".data, "LR".data]

/-- Inner loop of `_detect_diagram_type` for one (already stripped) line. -/
def detectLine (line : PyStr) : Option PyStr :=
  VALID_DIAGRAM_TYPES.findSome? (fun dt =>
    if startsw dt line then
      if dt = ("graph".data) ∨ dt = ("flowchart".data) then
        match pyWords line with
        | _ :: p1 :: _ => if p1 ∈ GRAPH_DIRECTIONS then some (dt ++ [' '] ++ p1) else some dt
        | _ => some dt
      else some dt
    else none)

/-- `_detect_diagram_type(non_comment_lines)`. -/
def detectDiagramType (non_comment_lines : List (Nat × PyStr)) : Option PyStr :=
  non_comment_lines.findSome? (fun nl => detectLine (pyStrip nl.2))

/-- `_check_duplicate_declarations(lines)` (errors it appends, in order). -/
def check_duplicate_declarations (lines : List PyStr) : List MErr :=
  let decls := (lines.enumFrom 1).filterMap (fun il =>
    let stripped := pyStrip il.2
    if ¬ startsw ("%%".data) stripped ∧ VALID_DIAGRAM_TYPES.any (fun dt => startsw dt stripped)
    then some (il.1, stripped) else none)
  match decls with
  | [] => []
  | [_] => []
  | (first_num, _) :: rest =>
    rest.map (fun ld =>
      { line_number := ld.1, error_type := "DUPLICATE_DECLARATION",
        description := "Duplicate diagram declaration: '" ++ String.mk ld.2 ++
          "' (first declaration at line " ++ toString first_num ++ ")" })

/-- Loop state of `_validate_graph`. -/
structure GraphSt where
  has_nodes : Bool := false
  has_edges : Bool := false
  subgraph_stack : List Nat := []
  errs : List MErr := []
  warns : List MErr := []
deriving Repr

/-- One iteration of the `_validate_graph` loop (line number `i`, raw line). -/
def graphStep (st : GraphSt) (il : Nat × PyStr) : GraphSt :=
  let i := il.1
  let stripped := pyStrip il.2
  if startsw ("%%".data) stripped then st
  else
    let st :=
      if containsSub ("[".data) stripped ∧ containsSub ("]".data) stripped then
        let st := { st with has_nodes := true }
        if hasDigitBracket stripped then
          { st with warns := st.warns ++
            [{ line_number := i, error_type := "NUMERIC_NODE_ID",
               description := "Node ID starts with number - may cause issues" }] }
        else st
      else st
    let st :=
      if containsSub ("-->".data) stripped ∨ containsSub ("---".data) stripped ∨
         containsSub ("==>".data) stripped then
        let st := { st with has_edges := true }
        let st :=
          if endsw ("-->".data) stripped ∨ endsw ("->>".data) stripped then
            { st with errs := st.errs ++
              [{ line_number := i, error_type := "TRAILING_ARROW",
                 description := "Arrow pointing to nothing" }] }
          else st
        if containsSub ("-->-->".data) stripped then
          { st with errs := st.errs ++
            [{ line_number := i, error_type := "DOUBLE_ARROW",
               description := "Double arrow syntax (-->-->) is invalid" }] }
        else st
      else st
    if containsSub ("subgraph".data) (pyLower stripped) then
      { st with subgraph_stack := st.subgraph_stack ++ [i] }
    else if stripped = ("end".data) then
      if st.subgraph_stack ≠ [] then
        { st with subgraph_stack := st.subgraph_stack.dropLast }
      else
        { st with errs := st.errs ++
          [{ line_number := i, error_type := "EXTRA_END",
             description := "Extra 'end' statement without matching subgraph" }] }
    else st

/-- `_validate_graph(lines, diagram_type)` (the `diagram_type` parameter is
unused in the source body); returns the `(errors, warnings)` it appends. -/
def validate_graph (lines : List PyStr) : List MErr × List MErr :=
  let st := (lines.enumFrom 1).foldl graphStep {}
  let errs := st.errs ++ st.subgraph_stack.map (fun line_num =>
    { line_number := line_num, error_type := "UNCLOSED_SUBGRAPH",
      description := "Subgraph not closed with 'end'" })
  let warns :=
    if ¬ st.has_nodes ∧ ¬ st.has_edges then
      st.warns ++ [{ line_number := 0, error_type := "EMPTY_GRAPH",
                     description := "Graph has no nodes or edges defined" }]
    else st.warns
  (errs, warns)

/-- Loop state of `_validate_sequence`. -/
structure SeqSt where
  has_participants : Bool := false
  has_messages : Bool := false
  participant_names : List PyStr := []
  errs : List MErr := []
  warns : List MErr := []
deriving Repr

/-- One iteration of the `_validate_sequence` loop. -/
def seqStep (st : SeqSt) (il : Nat × PyStr) : SeqSt :=
  let i := il.1
  let stripped := pyStrip il.2
  if startsw ("%%".data) stripped then st
  else
    let st :=
      if startsw ("participant".data) stripped ∨ startsw ("actor".data) stripped then
        let st := { st with has_participants := true }
        match matchPartActor stripped with
        | some kg =>
          let name := pyStrip kg.2
          let name :=
            if containsSub (['"']) name then stripSet ['"'] name
            else if containsSub (['\'']) name then stripSet ['\''] name
            else name
          let st :=
            if name ∈ st.participant_names then
              { st with warns := st.warns ++
                [{ line_number := i, error_type := "DUPLICATE_PARTICIPANT",
                   description := "Participant '" ++ String.mk name ++ "' already defined" }] }
            else st
          let st := { st with participant_names := st.participant_names ++ [name] }
          if containsSub ([' ']) name ∧
             ¬ (pyCount (['"']) stripped ≥ 2 ∨ pyCount (['\'']) stripped ≥ 2) then
            { st with errs := st.errs ++
              [{ line_number := i, error_type := "UNQUOTED_PARTICIPANT",
                 description := "Participant name with spaces needs quotes: '" ++
                   String.mk name ++ "'" }] }
          else st
        | none => st
      else st
    let st :=
      if containsSub ("participant \"".data) stripped ∧
         pyCount ("participant".data) stripped > 1 then
        { st with errs := st.errs ++
          [{ line_number := i, error_type := "MALFORMED_PARTICIPANT",
             description := "Multiple 'participant' keywords in one line" }] }
      else st
    if containsSub ("->>".data) stripped ∨ containsSub ("-->".data) stripped ∨
       containsSub ("-->>".data) stripped then
      { st with has_messages := true }
    else st

/-- `_validate_sequence(lines)`. -/
def validate_sequence (lines : List PyStr) : List MErr × List MErr :=
  let st := (lines.enumFrom 1).foldl seqStep {}
  let warns :=
    if ¬ st.has_participants ∧ ¬ st.has_messages then
      st.warns ++ [{ line_number := 0, error_type := "EMPTY_SEQUENCE",
                     description := "Sequence diagram has no participants or messages" }]
    else st.warns
  (st.errs, warns)

/-- One iteration of the `_validate_state` loop; the state is
`(has_states, errs, warns)` (the source's `has_transitions` flag is set but
never read, so it is not tracked). -/
def stateStep (st : Bool × List MErr × List MErr) (il : Nat × PyStr) :
    Bool × List MErr × List MErr :=
  let i := il.1
  let stripped := pyStrip il.2
  let (has_states, errs, warns) := st
  if startsw ("%%".data) stripped then st
  else
    let errs :=
      if containsSub ("graph ".data) (pyLower stripped) ∧
         ¬ startsw ("%%".data) stripped then
        errs ++ [{ line_number := i, error_type := "MIXED_SYNTAX",
                   description := "Graph syntax found in state diagram" }]
      else errs
    let errs :=
      if containsSub ("subgraph".data) (pyLower stripped) then
        errs ++ [{ line_number := i, error_type := "WRONG_GROUPING",
                   description := "Use 'state' instead of 'subgraph' in state diagrams" }]
      else errs
    let has_states :=
      if containsSub ("state ".data) stripped ∨ containsSub ("[*]".data) stripped then
        true
      else has_states
    let warns :=
      if containsSub ("\\<br/\\>".data) stripped ∨ containsSub ("<br/>".data) stripped then
        warns ++ [{ line_number := i, error_type := "HTML_IN_STATE",
                    description := "HTML breaks may not render correctly in state diagrams" }]
      else warns
    (has_states, errs, warns)

/-- `_validate_state(lines)`. -/
def validate_state (lines : List PyStr) : List MErr × List MErr :=
  let st := (lines.enumFrom 1).foldl stateStep (false, [], [])
  let (has_states, errs, warns) := st
  let warns :=
    if ¬ has_states then
      warns ++ [{ line_number := 0, error_type := "NO_STATES",
                  description := "State diagram has no states defined" }]
    else warns
  (errs, warns)

/-- One iteration of the `_validate_class` loop; `none` marks the spot where
`stripped.split('-->')[1]` would raise `IndexError` in Python (guarded by
`'-->' in stripped`, see the totality lemma). -/
def classStep (st : Bool × List MErr × List MErr) (il : Nat × PyStr) :
    Option (Bool × List MErr × List MErr) :=
  let i := il.1
  let stripped := pyStrip il.2
  let (has_classes, errs, warns) := st
  if startsw ("%%".data) stripped then some st
  else
    let has_classes := if containsSub ("class ".data) stripped then true else has_classes
    let errs :=
      if containsSub ("<<@".data) stripped then
        errs ++ [{ line_number := i, error_type := "INVALID_STEREOTYPE",
                   description := "Stereotype cannot contain @ symbol - use <<Entity>> not <<@Entity>>" }]
      else errs
    let warns :=
      if containsSub ("@Id".data) stripped ∨ containsSub ("@GeneratedValue".data) stripped ∨
         containsSub ("@OneToMany".data) stripped then
        warns ++ [{ line_number := i, error_type := "JPA_ANNOTATION",
                    description := "JPA annotations in field definitions may cause parsing errors" }]
      else warns
    if containsSub ("-->".data) stripped ∨ containsSub ("..|>".data) stripped ∨
       containsSub ("<|--".data) stripped then
      if containsSub ("-->".data) stripped then
        match (splitSub ("-->".data) stripped).get? 1 with
        | none => none
        | some part1 =>
          if ¬ containsSub ([':']) part1 then
            let parts := splitSub ("-->".data) stripped
            match parts.get? 1 with
            | none => none
            | some p1 =>
              if parts.length > 1 ∧ pyStrip p1 ≠ [] ∧
                 ¬ startsw ([':']) (pyStrip p1) then
                let e : MErr :=
                  { line_number := i, error_type := "MISSING_COLON",
                    description := "Relationship label needs colon - use 'A --> B : label' not 'A --> B label'" }
                some (has_classes, errs ++ [e], warns)
              else some (has_classes, errs, warns)
          else some (has_classes, errs, warns)
      else some (has_classes, errs, warns)
    else some (has_classes, errs, warns)

/-- `_validate_class(lines)`. -/
def validate_class (lines : List PyStr) : Option (List MErr × List MErr) := do
  let st ← (lines.enumFrom 1).foldlM classStep (false, [], [])
  let (has_classes, errs, warns) := st
  let warns :=
    if ¬ has_classes then
      warns ++ [{ line_number := 0, error_type := "NO_CLASSES",
                  description := "Class diagram has no class definitions" }]
    else warns
  some (errs, warns)

/-- `relationship_symbols` of `_validate_er`. -/
def relationship_symbols : List PyStr :=
  ["||--||".data, "||--o\x7b".data, "\x7do--||".data, "||--|\x7b".data, "\x7d|--||".data]

/-- One iteration of the `_validate_er` loop; the flag is `has_relationships`
(the source's `has_entities` flag is set but never read). -/
def erStep (st : Bool) (il : Nat × PyStr) : Bool :=
  let stripped := pyStrip il.2
  if startsw ("%%".data) stripped then st
  else if relationship_symbols.any (fun sym => containsSub sym stripped) then true
  else st

/-- `_validate_er(lines)`. -/
def validate_er (lines : List PyStr) : List MErr × List MErr :=
  let has_relationships := (lines.enumFrom 1).foldl erStep false
  let warns :=
    if ¬ has_relationships then
      [{ line_number := 0, error_type := "NO_RELATIONSHIPS",
         description := "ER diagram has no relationships defined" }]
    else []
  ([], warns)

/-- The typo table of `_validate_common` / `_apply_common_fixes`
(a Python dict, iterated in insertion order). -/
def typoTable : List (PyStr × PyStr) :=
  [("grpah".data, "graph".data),
   ("sequenceDiagam".data, "sequenceDiagram".data),
   ("classDiagam".data, "classDiagram".data),
   ("stateDiagam".data, "stateDiagram".data),
   ("paricipant".data, "participant".data),
   ("particpant".data, "participant".data)]

/-- One iteration of the `_validate_common` loop. -/
def commonStep (st : List MErr × List MErr) (il : Nat × PyStr) : List MErr × List MErr :=
  let i := il.1
  let line := il.2
  let (errs, warns) := st
  if startsw ("%%".data) (pyStrip line) then st
  else
    let double_quotes : Int := (pyCount (['"']) line : Int) - (pyCount ['\\', '"'] line : Int)
    let errs :=
      if double_quotes % 2 ≠ 0 then
        errs ++ [{ line_number := i, error_type := "UNCLOSED_QUOTES",
                   description := "Unclosed double quotes" }]
      else errs
    let single_quotes : Int := (pyCount (['\'']) line : Int) - (pyCount ['\\', '\''] line : Int)
    let warns :=
      if single_quotes % 2 ≠ 0 ∧ ¬ hasWordAposWord line then
        warns ++ [{ line_number := i, error_type := "UNCLOSED_QUOTES",
                    description := "Possibly unclosed single quotes" }]
      else warns
    let warns := warns ++ (typoTable.filterMap (fun tc =>
      if containsSub tc.1 line then
        some { line_number := i, error_type := "TYPO",
               description := "Possible typo: '" ++ String.mk tc.1 ++ "' should be '" ++
                 String.mk tc.2 ++ "'" }
      else none))
    (errs, warns)

/-- `_validate_common(lines)`. -/
def validate_common (lines : List PyStr) : List MErr × List MErr :=
  (lines.enumFrom 1).foldl commonStep ([], [])

/-- `validate(content)` up to the final packaging: the accumulated
`(errors, warnings)` lists at the return point (`none` only at the
`IndexError` spot inside `_validate_class`, proven unreachable below).  At the
two early returns the source returns `(False, self.errors)` with `warnings`
still empty, which agrees with packaging `(errors, [])`. -/
def validateCore (content : PyStr) : Option (List MErr × List MErr) :=
  let lines0 := splitLinesPy content
  let lines1 := lines0.dropWhile (fun l => pyStrip l = [])
  let lines := (lines1.reverse.dropWhile (fun l => pyStrip l = [])).reverse
  if lines = [] then
    some ([{ line_number := 0, error_type := "EMPTY_DIAGRAM",
             description := "Diagram is empty" }], [])
  else
    let non_comment_lines := lines.enum.filterMap (fun il =>
      if ¬ startsw ("%%".data) (pyStrip il.2) then some (il.1 + 1, il.2) else none)
    if non_comment_lines = [] then
      some ([{ line_number := 0, error_type := "ONLY_COMMENTS",
               description := "Diagram contains only comments" }], [])
    else
      let diagram_type := detectDiagramType non_comment_lines
      do
        let ew1 ← (match diagram_type with
          | some dt =>
            if startsw ("graph".data) dt ∨ startsw ("flowchart".data) dt then
              some (validate_graph lines)
            else if dt = ("sequenceDiagram".data) then
              some (validate_sequence lines)
            else if dt = ("classDiagram".data) then
              validate_class lines
            else if startsw ("stateDiagram".data) dt then
              some (validate_state lines)
            else if dt = ("erDiagram".data) then
              some (validate_er lines)
            else some ([], [])
          | none =>
            let ln : Nat := match non_comment_lines with
              | nl :: _ => nl.1
              | [] => 1
            some ([{ line_number := ln,
                     error_type := "INVALID_TYPE",
                     description := "No valid diagram type declaration found" }], []))
        let ew2 := validate_common lines
        let e3 := check_duplicate_declarations lines
        some (ew1.1 ++ ew2.1 ++ e3, ew1.2 ++ ew2.2)

/-- `validate(content)`: `(len(errors) == 0, errors + warnings)`, in the
Python-exception monad (`none` = unhandled `IndexError`, proven unreachable). -/
def validateO (content : PyStr) : Option (Bool × List MErr) :=
  (validateCore content).map (fun ew => (ew.1.isEmpty, ew.1 ++ ew.2))

/-- Total wrapper of `validateO`; by `validateO_isSome` the default branch is
never taken. -/
def validate (content : PyStr) : Bool × List MErr :=
  (validateO content).getD (false, [])

end ComprehensiveMermaidValidator

section ValidatorExamples
open ComprehensiveMermaidValidator

example : (validate ("graph TB\n  A[Start] --> B[End]".data)).1 = true := by decide
example : validate ("".data) =
    (false, [{ line_number := 0, error_type := "EMPTY_DIAGRAM",
               description := "Diagram is empty" }]) := by decide
example : (validate ("graph TB\n  1[Start]".data)) =
    (true, [{ line_number := 2, error_type := "NUMERIC_NODE_ID",
              description := "Node ID starts with number - may cause issues" }]) := by decide
example : (validate ("graph TB\nA --> B\nend".data)).1 = false := by decide
example : (validate ("sequenceDiagram\n  participant Alice Wonderland".data)).1 = false := by decide
end ValidatorExamples

/-! ## Regex scanners used by `ComprehensiveMermaidFixer` -/

/-- Models `re.search(r'\b(\d+[A-Za-z]*)\[', line) is not None`; `prev` is the
character before the scan position (`none` at the start of the string), used
for the `\b` test before a digit. -/
def hasNumericIdGo : Option Char → PyStr → Bool
  | _, [] => false
  | prev, a :: s =>
    let boundary : Bool := match prev with
      | none => true
      | some p => ! isWordChar p
    if boundary ∧ a.isDigit then
      let r1 := (a :: s).dropWhile Char.isDigit
      let r2 := r1.dropWhile Char.isAlpha
      match r2 with
      | '[' :: _ => true
      | _ => hasNumericIdGo (some a) s
    else hasNumericIdGo (some a) s

/-- Boolean entry point for the numeric-node-id search. -/
def hasNumericId (line : PyStr) : Bool := hasNumericIdGo none line

/-- Fuel-indexed worker modelling `re.sub(r'\b(\d+[A-Za-z]*)\[', r'N\1[', line)`:
insert `N` before each boundary-anchored digit run followed by a letter run
and `[`; scanning resumes after each match (non-overlapping). -/
def numericIdSubGo : Option Char → Nat → PyStr → PyStr
  | _, _, [] => []
  | _, 0, s => s
  | prev, fuel + 1, a :: s =>
    let boundary : Bool := match prev with
      | none => true
      | some p => ! isWordChar p
    if boundary ∧ a.isDigit then
      let ds := (a :: s).takeWhile Char.isDigit
      let r1 := (a :: s).dropWhile Char.isDigit
      let ls := r1.takeWhile Char.isAlpha
      let r2 := r1.dropWhile Char.isAlpha
      match r2 with
      | '[' :: r3 => 'N' :: (ds ++ ls ++ ['[']) ++ numericIdSubGo (some '[') fuel r3
      | _ => a :: numericIdSubGo (some a) fuel s
    else a :: numericIdSubGo (some a) fuel s

/-- Entry point for the numeric-node-id substitution. -/
def numericIdSub (line : PyStr) : PyStr := numericIdSubGo none line.length line

/-- Models `re.search(r'"([^"]+)"', line)`, returning the first group. -/
def firstQuoted : PyStr → Option PyStr
  | [] => none
  | '"' :: s =>
    let g := s.takeWhile (fun c => c ≠ '"')
    let r := s.dropWhile (fun c => c ≠ '"')
    if g ≠ [] ∧ r ≠ [] then some g else firstQuoted s
  | _ :: s => firstQuoted s

/-- Models `re.search(r'\[([^\]]+)\]', line)`, returning the first group. -/
def firstBracketGroup : PyStr → Option PyStr
  | [] => none
  | '[' :: s =>
    let g := s.takeWhile (fun c => c ≠ ']')
    let r := s.dropWhile (fun c => c ≠ ']')
    if g ≠ [] ∧ r ≠ [] then some g else firstBracketGroup s
  | _ :: s => firstBracketGroup s

/-- Fuel-indexed worker modelling `re.sub(r'(\w)(-->>?)', r'\1 \2', line)`
(`-->>?` is greedy, preferring `-->>`). -/
def arrowSpace1Go : Nat → PyStr → PyStr
  | _, [] => []
  | 0, s => s
  | fuel + 1, a :: s =>
    if isWordChar a ∧ ("-->>".data).isPrefixOf s then
      a :: ' ' :: '-' :: '-' :: '>' :: '>' :: arrowSpace1Go fuel (s.drop 4)
    else if isWordChar a ∧ ("-->".data).isPrefixOf s then
      a :: ' ' :: '-' :: '-' :: '>' :: arrowSpace1Go fuel (s.drop 3)
    else a :: arrowSpace1Go fuel s

/-- Entry point for the first arrow-spacing substitution. -/
def arrowSpace1 (line : PyStr) : PyStr := arrowSpace1Go line.length line

/-- Fuel-indexed worker modelling `re.sub(r'(-->>?)(\w)', r'\1 \2', line)`;
after a greedy `-->>` whose next character is not a word character the
backtracked `-->` alternative is followed by `>`, which is not a word
character either, so the position does not match. -/
def arrowSpace2Go : Nat → PyStr → PyStr
  | _, [] => []
  | 0, s => s
  | fuel + 1, a :: s =>
    let full := a :: s
    if ("-->>".data).isPrefixOf full then
      match full.drop 4 with
      | b :: r2 =>
        if isWordChar b then ('-' :: '-' :: '>' :: '>' :: ' ' :: [b]) ++ arrowSpace2Go fuel r2
        else a :: arrowSpace2Go fuel s
      | [] => a :: arrowSpace2Go fuel s
    else if ("-->".data).isPrefixOf full then
      match full.drop 3 with
      | b :: r2 =>
        if isWordChar b then ('-' :: '-' :: '>' :: ' ' :: [b]) ++ arrowSpace2Go fuel r2
        else a :: arrowSpace2Go fuel s
      | [] => a :: arrowSpace2Go fuel s
    else a :: arrowSpace2Go fuel s

/-- Entry point for the second arrow-spacing substitution. -/
def arrowSpace2 (line : PyStr) : PyStr := arrowSpace2Go line.length line

/-- Fuel-indexed worker modelling `re.sub(r'\s*@\w+', '', line)`: delete each
leftmost run of optional whitespace followed by `@` and a nonempty word run. -/
def jpaSubGo : Nat → PyStr → PyStr
  | _, [] => []
  | 0, s => s
  | fuel + 1, a :: s =>
    let full := a :: s
    let r := full.dropWhile isWs
    match r with
    | '@' :: r2 =>
      let ids := r2.takeWhile isWordChar
      if ids ≠ [] then jpaSubGo fuel (r2.drop ids.length)
      else a :: jpaSubGo fuel s
    | _ => a :: jpaSubGo fuel s

/-- Entry point for the JPA-annotation deletion. -/
def jpaSub (line : PyStr) : PyStr := jpaSubGo line.length line

/-- Fuel-indexed worker modelling `re.sub(r'(\w+)\s*SYM\s*(\w+)\s*(.*)', rep, line)`
for a literal `SYM`: at the leftmost word run followed (after optional
whitespace) by `SYM`, optional whitespace, and a second nonempty word run,
`(.*)` takes the remainder and `rep` assembles the replacement from the three
groups; the whole rest of the line is consumed, so at most one match fires. -/
def erSubGo (sym : PyStr) (rep : PyStr → PyStr → PyStr → PyStr) : Nat → PyStr → PyStr
  | _, [] => []
  | 0, s => s
  | fuel + 1, a :: s =>
    let full := a :: s
    if isWordChar a then
      let g1 := full.takeWhile isWordChar
      let r1 := full.dropWhile isWordChar
      let r2 := r1.dropWhile isWs
      if sym.isPrefixOf r2 then
        let r3 := (r2.drop sym.length).dropWhile isWs
        let g2 := r3.takeWhile isWordChar
        if g2 ≠ [] then
          let g3 := (r3.drop g2.length).dropWhile isWs
          rep g1 g2 g3
        else a :: erSubGo sym rep fuel s
      else a :: erSubGo sym rep fuel s
    else a :: erSubGo sym rep fuel s

/-- Entry point for one ER-relationship substitution. -/
def erSub (sym : PyStr) (rep : PyStr → PyStr → PyStr → PyStr) (line : PyStr) : PyStr :=
  erSubGo sym rep line.length line

example : hasNumericId ("  12ab3[".data) = false := by decide
example : hasNumericId ("  123[x]".data) = true := by decide
example : numericIdSub ("1[A] --> 2B[C]".data) = "N1[A] --> N2B[C]".data := by decide
example : firstQuoted ("participant \"Al B\" x".data) = some ("Al B".data) := by decide
example : arrowSpace1 ("A-->B".data) = "A -->B".data := by decide
example : arrowSpace2 ("A -->B".data) = "A --> B".data := by decide
example : arrowSpace1 ("A-->>B".data) = "A -->>B".data := by decide
example : jpaSub ("x  @Id y".data) = "x y".data := by decide
example : erSub ("||--||".data)
    (fun g1 g2 g3 => g1 ++ " \"1\" -- \"1\" ".data ++ g2 ++ " : ".data ++ g3)
    ("A ||--|| B has".data) = "A \"1\" -- \"1\" B : has".data := by decide

/-! ## `ComprehensiveMermaidFixer` -/

namespace ComprehensiveMermaidFixer

/-- `_detect_diagram_type(lines)` of the fixer: first valid type that some
non-comment line starts with (no direction suffix handling here). -/
def detect_diagram_type (lines : List PyStr) : Option PyStr :=
  lines.findSome? (fun line =>
    let stripped := pyStrip line
    if ¬ startsw ("%%".data) stripped then
      ComprehensiveMermaidValidator.VALID_DIAGRAM_TYPES.find? (fun dt => startsw dt stripped)
    else none)

/-- `_remove_duplicate_declarations(lines)`. -/
def remove_duplicate_declarations (lines : List PyStr) : List PyStr × List String :=
  let step := fun (st : List PyStr × Bool × List String) (line : PyStr) =>
    let (acc, found, fixes) := st
    let stripped := pyStrip line
    let is_declaration := ¬ startsw ("%%".data) stripped ∧
      ComprehensiveMermaidValidator.VALID_DIAGRAM_TYPES.any (fun dt => startsw dt stripped)
    if is_declaration then
      if ¬ found then (acc ++ [line], true, fixes)
      else (acc, found,
        fixes ++ ["Removed duplicate declaration: '" ++ String.mk stripped ++ "'"])
    else (acc ++ [line], found, fixes)
  let r := lines.foldl step ([], false, [])
  (r.1, r.2.2)

/-- `_add_diagram_type(lines)`: the content-detection patterns; the
`'subgraph' in content or '-->' in content` branch and the final default both
yield `graph TB`, so they are collapsed. -/
def addTypeDetect (content : PyStr) : PyStr :=
  if containsSub ("[*]".data) content ∨
     (containsSub ("state ".data) (pyLower content) ∧ containsSub ("-->".data) content) then
    "stateDiagram-v2".data
  else if containsSub ("participant".data) content ∨ containsSub ("->>".data) content then
    "sequenceDiagram".data
  else if containsSub ("class ".data) content ∧ containsSub ("::".data) content then
    "classDiagram".data
  else if ["||--||".data, "||--o\x7b".data, "\x7do--||".data].any
      (fun rel => containsSub rel content) then
    "erDiagram".data
  else "graph TB".data

/-- `_add_diagram_type(lines)`: insert the detected type before the first
non-comment line (or at position 0 when every line is a comment). -/
def add_diagram_type (lines : List PyStr) : List PyStr × List String :=
  let content := joinLinesPy lines
  let diagram_type := addTypeDetect content
  let step := fun (st : List PyStr × Bool) (line : PyStr) =>
    let (acc, added) := st
    if ¬ added ∧ ¬ startsw ("%%".data) (pyStrip line) then
      (acc ++ [diagram_type, line], true)
    else (acc ++ [line], added)
  let r := lines.foldl step ([], false)
  let msg := "Added missing diagram type: " ++ String.mk diagram_type
  if r.2 then (r.1, [msg]) else (diagram_type :: r.1, [msg])

/-- The per-line fixes of `_fix_graph`: double arrows, trailing arrows (tested
on the strip of the original line), numeric node ids (tested on the already
rewritten line, as in the source). -/
def fix_graph_line (line : PyStr) : PyStr × List String :=
  let stripped := pyStrip line
  let (line, f1) :=
    if containsSub ("-->-->".data) line then
      (repl ("-->-->".data) ("-->".data) line, ["Fixed double arrow (-->-->)"])
    else (line, [])
  let (line, f2) :=
    if endsw ("-->".data) stripped then
      (rstripWs (rstripSet ['-', '>'] line) ++ " --> [TODO]".data, ["Fixed trailing arrow"])
    else (line, [])
  let (line, f3) :=
    if hasNumericId line then (numericIdSub line, ["Fixed numeric node ID"])
    else (line, [])
  (line, f1 ++ f2 ++ f3)

/-- The loop body of `_fix_graph`: rewrite one line, update the
`subgraph`/`end` counters on the strip of the original line. -/
def fix_graph_step (st : List PyStr × Nat × Nat × List String) (line : PyStr) :
    List PyStr × Nat × Nat × List String :=
  let (acc, subc, endc, fixes) := st
  let stripped := pyStrip line
  let lf := fix_graph_line line
  let (subc, endc) :=
    if containsSub ("subgraph".data) (pyLower stripped) then (subc + 1, endc)
    else if stripped = ("end".data) then (subc, endc + 1)
    else (subc, endc)
  (acc ++ [lf.1], subc, endc, fixes ++ lf.2)

/-- `_fix_graph(lines)`: per-line fixes, then append one `end` per unmatched
`subgraph` (counts taken on the strip of the original lines; nothing is done
when there are more `end`s than `subgraph`s). -/
def fix_graph (lines : List PyStr) : List PyStr × List String :=
  let r := lines.foldl fix_graph_step ([], 0, 0, [])
  let (acc, subc, endc, fixes) := r
  if subc > endc then
    (acc ++ List.replicate (subc - endc) ("end".data),
     fixes ++ List.replicate (subc - endc) "Added missing 'end' statement")
  else (acc, fixes)

/-- The per-line fixes of `_fix_sequence`; the participant-quoting test uses
the strip of the original line even if the malformed-participant fix already
rewrote the line, exactly as in the source. -/
def fix_sequence_line (line : PyStr) : PyStr × List String :=
  let stripped := pyStrip line
  let (line, f1) :=
    if containsSub ("participant \"".data) line ∧ pyCount ("participant".data) line > 1 then
      match firstQuoted line with
      | some name =>
        (("    participant \"".data) ++ name ++ ['"'],
         ["Fixed malformed participant declaration"])
      | none => (line, [])
    else (line, [])
  let (line, f2) :=
    if startsw ("participant".data) stripped ∨ startsw ("actor".data) stripped then
      match matchPartActor stripped with
      | some kg =>
        let name := pyStrip kg.2
        if containsSub ([' ']) name ∧ ¬ (startsw (['"']) name ∨ startsw (['\'']) name) then
          (("    ".data) ++ kg.1 ++ (" \"".data) ++ name ++ ['"'],
           ["Added quotes to participant name: " ++ String.mk name])
        else (line, [])
      | none => (line, [])
    else (line, [])
  let line :=
    if containsSub ("-->".data) line ∨ containsSub ("->>".data) line then
      arrowSpace2 (arrowSpace1 line)
    else line
  (line, f1 ++ f2)

/-- `_fix_sequence(lines)`. -/
def fix_sequence (lines : List PyStr) : List PyStr × List String :=
  let r := lines.foldl (fun (st : List PyStr × List String) (line : PyStr) =>
    let lf := fix_sequence_line line
    (st.1 ++ [lf.1], st.2 ++ lf.2)) ([], [])
  r

/-- `_fix_state(lines)`: drop `graph ` declarations, rewrite `subgraph` to
`state`, replace literal `\<br/\>` by ` - `. -/
def fix_state (lines : List PyStr) : List PyStr × List String :=
  lines.foldl (fun (st : List PyStr × List String) (line : PyStr) =>
    let stripped := pyStrip line
    if startsw ("graph ".data) stripped then
      (st.1, st.2 ++ ["Removed incompatible 'graph' declaration from state diagram"])
    else
      let (line, f1) :=
        if containsSub ("subgraph".data) line then
          (repl ("subgraph".data) ("state".data) line, ["Converted 'subgraph' to 'state'"])
        else (line, [])
      let (line, f2) :=
        if containsSub ("\\<br/\\>".data) line then
          (repl ("\\<br/\\>".data) (" - ".data) line, ["Replaced HTML break with dash"])
        else (line, [])
      (st.1 ++ [line], st.2 ++ f1 ++ f2)) ([], [])

/-- The four ER-relationship rewrites of `_fix_class`, applied in source
order (one-to-one, one-to-many, many-to-one, many-to-many). -/
def classErRewrites (line : PyStr) : PyStr :=
  let line := erSub ("||--||".data)
    (fun g1 g2 g3 => g1 ++ (" \"1\" -- \"1\" ".data) ++ g2 ++ (" : ".data) ++ g3) line
  let line := erSub ("||--o\x7b".data)
    (fun g1 g2 g3 => g1 ++ (" \"1\" --o \"*\" ".data) ++ g2 ++ (" : ".data) ++ g3) line
  let line := erSub ("\x7do--||".data)
    (fun g1 g2 g3 => g1 ++ (" \"*\" o-- \"1\" ".data) ++ g2 ++ (" : ".data) ++ g3) line
  let line := erSub ("o--o\x7b".data)
    (fun g1 g2 g3 => g1 ++ (" o-- \"*\" ".data) ++ g2 ++ (" : ".data) ++ g3) line
  line

/-- The per-line fixes of `_fix_class`. -/
def fix_class_line (line : PyStr) : PyStr × List String :=
  let (line, f1) :=
    if containsSub ("<<@".data) line then
      (repl ("<<@".data) ("<<".data) line, ["Removed @ from stereotype"])
    else (line, [])
  let (line, f2) :=
    if containsSub ("@Id".data) line ∨ containsSub ("@GeneratedValue".data) line then
      (jpaSub line, ["Removed JPA annotations"])
    else (line, [])
  let (line, f3) :=
    if containsSub ("||--||".data) line ∨ containsSub ("||--o\x7b".data) line ∨
       containsSub ("\x7do--||".data) line ∨ containsSub ("o--o\x7b".data) line then
      let line2 := classErRewrites line
      if line2 ≠ line then
        (line2, ["Converted ER relationship to class diagram syntax"])
      else (line2, [])
    else (line, [])
  let (line, f4) :=
    if containsSub ("-->".data) line ∧ ¬ containsSub ([':']) line then
      match splitSub ("-->".data) line with
      | [p0, p1] =>
        if pyStrip p1 ≠ [] then
          (p0 ++ ("--> : ".data) ++ pyStrip p1, ["Added colon to relationship label"])
        else (line, [])
      | _ => (line, [])
    else (line, [])
  (line, f1 ++ f2 ++ f3 ++ f4)

/-- `_fix_class(lines)`. -/
def fix_class (lines : List PyStr) : List PyStr × List String :=
  lines.foldl (fun (st : List PyStr × List String) (line : PyStr) =>
    let lf := fix_class_line line
    (st.1 ++ [lf.1], st.2 ++ lf.2)) ([], [])

/-- `_fix_er(lines)`: returns the lines as-is. -/
def fix_er (lines : List PyStr) : List PyStr × List String := (lines, [])

/-- One iteration of the typo loop of `_apply_common_fixes`. -/
def typo_step (st : PyStr × List String) (tc : PyStr × PyStr) : PyStr × List String :=
  if containsSub tc.1 st.1 then
    (repl tc.1 tc.2 st.1,
     st.2 ++ ["Fixed typo: " ++ String.mk tc.1 ++ " -> " ++ String.mk tc.2])
  else st

/-- The per-line step of `_apply_common_fixes`: append `"` to non-comment
lines with an odd unescaped-double-quote count, then replace each typo of the
typo table everywhere in the line. -/
def apply_common_line (line : PyStr) : PyStr × List String :=
  let (line, f1) :=
    if ¬ startsw ("%%".data) (pyStrip line) then
      let dq : Int := (pyCount (['"']) line : Int) - (pyCount ['\\', '"'] line : Int)
      if dq % 2 ≠ 0 then (line ++ ['"'], ["Fixed unclosed double quote"])
      else (line, [])
    else (line, [])
  ComprehensiveMermaidValidator.typoTable.foldl typo_step (line, f1)

/-- One iteration of the line loop of `_apply_common_fixes`. -/
def acf_step (st : List PyStr × List String) (line : PyStr) :
    List PyStr × List String :=
  let lf := apply_common_line line
  (st.1 ++ [lf.1], st.2 ++ lf.2)

/-- `_apply_common_fixes(lines)`. -/
def apply_common_fixes (lines : List PyStr) : List PyStr × List String :=
  lines.foldl acf_step ([], [])

/-- `fix(content)`: duplicate-declaration removal, type-specific fixes (or
type insertion when no type was detected), then common fixes; returns the
joined content and the fix descriptions in application order. -/
def fix (content : PyStr) : PyStr × List String :=
  let lines := splitLinesPy content
  let lf1 := remove_duplicate_declarations lines
  let dt := detect_diagram_type lf1.1
  let lf2 := match dt with
    | some d =>
      if startsw ("graph".data) d ∨ startsw ("flowchart".data) d then fix_graph lf1.1
      else if d = ("sequenceDiagram".data) then fix_sequence lf1.1
      else if startsw ("stateDiagram".data) d then fix_state lf1.1
      else if d = ("classDiagram".data) then fix_class lf1.1
      else if d = ("erDiagram".data) then fix_er lf1.1
      else (lf1.1, [])
    | none => add_diagram_type lf1.1
  let lf3 := apply_common_fixes lf2.1
  (joinLinesPy lf3.1, lf1.2 ++ lf2.2 ++ lf3.2)

end ComprehensiveMermaidFixer

section FixerExamples
open ComprehensiveMermaidFixer

example : (fix ("graph TB\nA-->-->B".data)).1 = "graph TB\nA-->B".data := by decide
example : (fix ("graph TB\nA-->-->B".data)).2 = ["Fixed double arrow (-->-->)"] := by decide
example : (fix ("graph TB\nsubgraph S\nA --> B".data)).1 =
    "graph TB\nsubgraph S\nA --> B\nend".data := by decide
example : (fix ("graph TB\nend".data)) = ("graph TB\nend".data, []) := by decide
example : (fix ("sequenceDiagram\n    participant Alice Wonderland".data)).1 =
    "sequenceDiagram\n    participant \"Alice Wonderland\"".data := by decide
example : (fix ("A --> B".data)).1 = "graph TB\nA --> B".data := by decide
example : (fix ("grpah TB\nA --> B".data)).2 =
    ["Added missing diagram type: graph TB", "Fixed typo: grpah -> graph"] := by decide
end FixerExamples

/-! ## `MermaidPreWriteProcessor` (`mermaid_pre_write_hook.py`) -/

namespace MermaidPreWriteProcessor

/-- One line of `_clean_content`.  In the source, line 91 replaces `"` by `"`
(written with plain ASCII quotes, hence the identity) twice, and line 92 —
because its `'''` opens a triple-quoted string — replaces the fifteen
character string `, "'").replace(` by `'`. -/
def clean_line (line : PyStr) : PyStr :=
  let line := rstripWs line
  let line := repl (['–']) ("--".data) line
  let line := repl (['—']) ("---".data) line
  let line := repl (['"']) (['"']) line
  let line := repl (['"']) (['"']) line
  let line := repl (", \"'\").replace(".data) (['\'']) line
  line

/-- `_clean_content(content)`. -/
def clean_content (content : PyStr) : PyStr :=
  joinLinesPy ((splitLinesPy content).map clean_line)

/-- The `valid_types` list of `_ensure_diagram_type`. -/
def hookValidTypes : List PyStr :=
  ["graph".data, "flowchart".data, "sequenceDiagram".data, "classDiagram".data,
   "stateDiagram".data, "stateDiagram-v2".data, "erDiagram".data, "gantt".data,
   "pie".data, "journey".data, "gitGraph".data, "mindmap".data, "timeline".data]

/-- `_detect_diagram_type(content, hint)` of the hook.  A `none` or empty hint
is falsy in Python and falls through to content detection; the
`'subgraph' in content_lower or '-->' in content` branch and the final default
both yield `graph TB` and are collapsed. -/
def detectDiagramTypeHook (content : PyStr) (hint : Option PyStr) : PyStr :=
  let fromHint : Option PyStr := match hint with
    | some h =>
      if h = [] then none
      else
        let hl := pyLower h
        if hl = ("state".data) ∨ hl = ("statemachine".data) then some ("stateDiagram-v2".data)
        else if hl = ("sequence".data) ∨ hl = ("seq".data) then some ("sequenceDiagram".data)
        else if hl = ("class".data) ∨ hl = ("classes".data) then some ("classDiagram".data)
        else if hl = ("er".data) ∨ hl = ("entity".data) ∨ hl = ("erd".data) then some ("erDiagram".data)
        else if hl = ("flow".data) ∨ hl = ("flowchart".data) then some ("flowchart TB".data)
        else if hl = ("graph".data) then some ("graph TB".data)
        else none
    | none => none
  match fromHint with
  | some t => t
  | none =>
    let content_lower := pyLower content
    if containsSub ("[*]".data) content ∨ containsSub ("state ".data) content_lower then
      "stateDiagram-v2".data
    else if containsSub ("participant".data) content_lower ∨ containsSub ("->>".data) content then
      "sequenceDiagram".data
    else if containsSub ("class ".data) content_lower ∧
            (containsSub ("::".data) content ∨ containsSub ("<<".data) content) then
      "classDiagram".data
    else if ["||--||".data, "||--o\x7b".data, "\x7do--||".data, "||--|\x7b".data].any
        (fun rel => containsSub rel content) then
      "erDiagram".data
    else "graph TB".data

/-- `_ensure_diagram_type(content, hint)`.  Note the source rebuilds the
content from `comment_lines ++ [type] ++ non_empty_lines` when it inserts a
type, dropping blank lines and moving comments to the front. -/
def ensure_diagram_type (content : PyStr) (hint : Option PyStr) : PyStr × Option String :=
  let lines := splitLinesPy content
  let non_empty_lines := lines.filter
    (fun l => pyStrip l ≠ [] ∧ ¬ startsw ("%%".data) (pyStrip l))
  let comment_lines := lines.filter
    (fun l => pyStrip l ≠ [] ∧ startsw ("%%".data) (pyStrip l))
  match non_empty_lines with
  | [] =>
    let diagram_type : PyStr := match hint with
      | some h => if h ≠ [] then h else "graph TB".data
      | none => "graph TB".data
    (diagram_type ++ ("\n    A[Empty Diagram]".data),
     some ("Created minimal " ++ String.mk diagram_type))
  | fl :: _ =>
    let first_line := pyStrip fl
    let has_valid_type := hookValidTypes.any (fun vt => startsw vt first_line)
    if ¬ has_valid_type then
      let detected_type := detectDiagramTypeHook content hint
      (joinLinesPy (comment_lines ++ [detected_type] ++ non_empty_lines),
       some ("Added diagram type: " ++ String.mk detected_type))
    else (content, none)

/-- The declaration list used inside `_apply_aggressive_fixes`. -/
def aggressiveDeclTypes : List PyStr :=
  ["graph".data, "flowchart".data, "sequenceDiagram".data,
   "classDiagram".data, "stateDiagram".data, "erDiagram".data]

/-- `_apply_aggressive_fixes(content, errors)`. -/
def apply_aggressive_fixes (content : PyStr) (errors : List MErr) :
    PyStr × List String :=
  let lines := splitLinesPy content
  let error_types := errors.map (fun e => e.error_type)
  let lf1 :=
    if "DUPLICATE_DECLARATION" ∈ error_types then
      let r := lines.foldl (fun (st : List PyStr × Bool × List String) (line : PyStr) =>
        let (acc, seen, fx) := st
        let is_declaration := aggressiveDeclTypes.any (fun dt => startsw dt (pyStrip line))
        if is_declaration then
          if ¬ seen then (acc ++ [line], true, fx)
          else (acc, seen, fx ++ ["Removed duplicate: " ++ String.mk (pyStrip line)])
        else (acc ++ [line], seen, fx)) ([], false, [])
      (r.1, r.2.2)
    else (lines, [])
  let lf2 :=
    if "MIXED_SYNTAX" ∈ error_types then
      let diagram_type := detectDiagramTypeHook (joinLinesPy lf1.1) none
      if containsSub ("stateDiagram".data) diagram_type then
        let r := lf1.1.foldl (fun (st : List PyStr × List String) (line : PyStr) =>
          let (line, f1) :=
            if containsSub ("subgraph".data) line then
              (repl ("subgraph".data) ("state".data) line, ["Converted subgraph to state"])
            else (line, [])
          if containsSub ("graph ".data) line ∧ ¬ startsw ("%%".data) (pyStrip line) then
            (st.1, st.2 ++ f1)
          else (st.1 ++ [line], st.2 ++ f1)) ([], [])
        (r.1, lf1.2 ++ r.2)
      else if containsSub ("graph".data) diagram_type ∨
              containsSub ("flowchart".data) diagram_type then
        let r := lf1.1.foldl (fun (st : List PyStr × List String) (line : PyStr) =>
          let (line, f1) :=
            if containsSub ("state ".data) line ∧ containsSub (['"']) line then
              (repl ("state ".data) ("subgraph ".data) line, ["Converted state to subgraph"])
            else (line, [])
          (st.1 ++ [line], st.2 ++ f1)) ([], [])
        (r.1, lf1.2 ++ r.2)
      else lf1
    else lf1
  (joinLinesPy lf2.1, lf2.2)

/-- `_create_fallback_diagram(content, hint)`. -/
def create_fallback_diagram (content : PyStr) (hint : Option PyStr) : PyStr × String :=
  let diagram_type := detectDiagramTypeHook content hint
  let lines := splitLinesPy content
  let labels := lines.filterMap firstBracketGroup
  let labels :=
    if labels = [] then
      ["Diagram Content".data, "Could Not Be Parsed".data, "See Source".data]
    else labels
  let label0 : PyStr := match labels with
    | l :: _ => l
    | [] => "Diagram".data
  let fallback : PyStr :=
    if containsSub ("sequenceDiagram".data) diagram_type then
      ("sequenceDiagram\n    participant A as System\n    participant B as User\n    Note over A,B: ".data)
        ++ label0 ++ ("\n".data)
    else if containsSub ("classDiagram".data) diagram_type then
      ("classDiagram\n    class DiagramClass \x7b\n        +String content\n        +parseError() bool\n    \x7d\n".data)
    else if containsSub ("stateDiagram".data) diagram_type then
      ("stateDiagram-v2\n    [*] --> Processing\n    Processing --> Error : ".data)
        ++ label0 ++ ("\n    Error --> [*]\n".data)
    else if containsSub ("erDiagram".data) diagram_type then
      ("erDiagram\n    ENTITY ||--o\x7b ATTRIBUTE : has\n    ENTITY \x7b\n        string id\n        string name\n    \x7d\n".data)
    else
      let nodes := ((labels.take 3).enum.map (fun il =>
        ("    N".data) ++ (toString il.1).data ++ ("[".data) ++ il.2 ++ ("]\n".data))).flatten
      let e1 := if labels.length > 1 then ("    N0 --> N1\n".data) else []
      let e2 := if labels.length > 2 then ("    N1 --> N2\n".data) else []
      ("graph TB\n".data) ++ nodes ++ e1 ++ e2
  (fallback, "Created fallback " ++ String.mk diagram_type ++ " diagram due to parsing errors")

/-- `process_mermaid_content(content, diagram_type_hint)` in the Python
exception monad (`none` = an unhandled exception escaping from the validator,
proven unreachable below): clean, ensure a type, fix, validate, aggressive
fixes if invalid, re-validate, and substitute a fallback diagram if still
invalid. -/
def process_mermaid_contentO (content : PyStr) (hint : Option PyStr) :
    Option (PyStr × List String) :=
  let c1 := clean_content content
  let et := ensure_diagram_type c1 hint
  let fixes0 : List String := match et.2 with
    | some f => [f]
    | none => []
  let ff := ComprehensiveMermaidFixer.fix et.1
  match ComprehensiveMermaidValidator.validateO ff.1 with
  | none => none
  | some ve =>
    let af :=
      if ¬ ve.1 then apply_aggressive_fixes ff.1 ve.2
      else (ff.1, [])
    match ComprehensiveMermaidValidator.validateO af.1 with
    | none => none
    | some vf =>
      if vf.1 then some (af.1, fixes0 ++ ff.2 ++ af.2)
      else
        let fb := create_fallback_diagram af.1 hint
        some (fb.1, fixes0 ++ ff.2 ++ af.2 ++ [fb.2])

/-- Total wrapper of `process_mermaid_contentO` (see the totality lemma). -/
def process_mermaid_content (content : PyStr) (hint : Option PyStr) :
    PyStr × List String :=
  (process_mermaid_contentO content hint).getD ([], [])

end MermaidPreWriteProcessor

section ProcessorExamples
open MermaidPreWriteProcessor

example : process_mermaid_contentO ("graph TB\n  A[Start] --> B[End]".data) none =
    some ("graph TB\n  A[Start] --> B[End]".data, []) := by decide
example : (process_mermaid_content ("".data) none) =
    ("graph TB\n    A[Empty Diagram]".data, ["Created minimal graph TB"]) := by decide
example :
    (process_mermaid_content ("graph TB\nA --> B\nend\nend".data) none).2 =
    ["Created fallback graph TB diagram due to parsing errors"] := by decide
example :
    (process_mermaid_content ("graph TB\nA --> B\nend\nend".data) none).1 =
    ("graph TB\n    N0[Diagram Content]\n    N1[Could Not Be Parsed]\n" ++
     "    N2[See Source]\n    N0 --> N1\n    N1 --> N2\n").data := by decide
end ProcessorExamples

/-! ## `process_mermaid_in_markdown` (`comprehensive_mermaid_validator.py`) -/

/-- Index of the first occurrence of `p` in `s` (`str.find` for a found
pattern), `none` when absent. -/
def findSubIdx (p : PyStr) : PyStr → Option Nat
  | [] => if p.isPrefixOf ([] : PyStr) then some 0 else none
  | a :: s => if p.isPrefixOf (a :: s) then some 0 else (findSubIdx p s).map (fun k => k + 1)

/-- `MermaidDiagramError.__str__`. -/
def MErr.toStr (e : MErr) : String :=
  "Line " ++ toString e.line_number ++ " [" ++
    String.mk ((e.severity.data).map Char.toUpper) ++ "] " ++ e.error_type ++ ": " ++
    e.description

/-- Fuel-indexed scanner modelling
`re.sub(r'(` ``` `mermaid\n)(.*?)(\n` ``` `)', f, content, flags=re.DOTALL)`:
at each occurrence of the opening fence the lazy `(.*?)` takes the text up to
the first following `\n` fence, `f` receives the match start offset and the
body, and scanning resumes after the closing fence.  When no closing fence
exists in the remaining text no further match is possible, so the remainder is
emitted unchanged.  `f` also reports per-block error and fix lists, which the
scanner concatenates in order. -/
def scanBlocksGo (f : Nat → PyStr → Option (PyStr × List String × List String)) :
    Nat → Nat → PyStr → Option (PyStr × List String × List String)
  | _, _, [] => some ([], [], [])
  | 0, _, s => some (s, [], [])
  | fuel + 1, pos, a :: s =>
    let full := a :: s
    if ("```mermaid\n".data).isPrefixOf full then
      let rest := full.drop 11
      match findSubIdx ("\n```".data) rest with
      | some k =>
        let body := rest.take k
        let after := rest.drop (k + 4)
        match f pos body with
        | none => none
        | some bef =>
          match scanBlocksGo f fuel (pos + 11 + k + 4) after with
          | none => none
          | some tail =>
            some (("```mermaid\n".data) ++ bef.1 ++ ("\n```".data) ++ tail.1,
                  bef.2.1 ++ tail.2.1, bef.2.2 ++ tail.2.2)
      | none => some (full, [], [])
    else
      match scanBlocksGo f fuel (pos + 1) s with
      | none => none
      | some tail => some (a :: tail.1, tail.2.1, tail.2.2)

/-- `process_block` of `process_mermaid_in_markdown`, for the block at
character offset `pos`: validate; if invalid, fix, re-validate, and report the
remaining errors (prefixed with the block position) and the fixes; if valid,
leave the block untouched. -/
def process_blockMD (pos : Nat) (diagram : PyStr) :
    Option (PyStr × List String × List String) :=
  match ComprehensiveMermaidValidator.validateO diagram with
  | none => none
  | some ve =>
    if ¬ ve.1 then
      let ff := ComprehensiveMermaidFixer.fix diagram
      match ComprehensiveMermaidValidator.validateO ff.1 with
      | none => none
      | some vr =>
        some (ff.1,
          vr.2.map (fun e => "Block at position " ++ toString pos ++ ": " ++ MErr.toStr e),
          ff.2)
    else some (diagram, [], [])

/-- `process_mermaid_in_markdown(content)` in the Python exception monad:
`(fixed_content, errors, fixes)`. -/
def process_mermaid_in_markdownO (content : PyStr) :
    Option (PyStr × List String × List String) :=
  scanBlocksGo process_blockMD content.length 0 content

/-- Total wrapper of `process_mermaid_in_markdownO` (see the totality lemma). -/
def process_mermaid_in_markdown (content : PyStr) : PyStr × List String × List String :=
  (process_mermaid_in_markdownO content).getD ([], [], [])

section MarkdownExamples
example : process_mermaid_in_markdown ("# T\n```mermaid\ngraph TB\nA --> B\n```\nx".data) =
    ("# T\n```mermaid\ngraph TB\nA --> B\n```\nx".data, [], []) := by decide
example : (process_mermaid_in_markdown ("```mermaid\ngrpah TB\nA --> B\n```".data)).2.2 =
    ["Added missing diagram type: graph TB", "Fixed typo: grpah -> graph"] := by decide
end MarkdownExamples

/-! ## `MermaidValidator` (`validate_mermaid.py`) -/

namespace MermaidValidator

/-- `DIAGRAM_TYPES` of `validate_mermaid.py`; a Python `set` in the source,
modelled as a list in the order written there (all uses are membership or
`any`). -/
def DIAGRAM_TYPES : List PyStr :=
  ["graph".data, "flowchart".data, "sequenceDiagram".data, "classDiagram".data,
   "stateDiagram".data, "stateDiagram-v2".data, "erDiagram".data, "journey".data,
   "gantt".data, "pie".data, "quadrantChart".data, "requirementDiagram".data,
   "gitGraph".data, "mindmap".data, "timeline".data, "zenuml".data, "sankey".data]

/-- One iteration of the `validate_flowchart` loop.  The state is
`(has_nodes, has_connections, errors)`.  The source's connection test is
`'-->' in line or '---' in line or '-.->'`; its third disjunct is the nonempty
string literal `'-.->'`, which is always truthy, so the whole test is true for
every line that reaches it. -/
def flowStep (st : Bool × Bool × List String) (line0 : PyStr) :
    Bool × Bool × List String :=
  let line := pyStrip line0
  let (has_nodes, _, errs) := st
  if line = [] ∨ startsw ("%%".data) line then st
  else
    let has_nodes :=
      if line.takeWhile isWordChar ≠ [] ∧
         (line.dropWhile isWordChar).head? = some '[' then true
      else has_nodes
    let has_connections := true
    let errs :=
      if pyCount ("-->".data) line > 1 then
        errs ++ ["Multiple arrows on same line: " ++ String.mk (line.take 50)]
      else errs
    let errs :=
      if endsw ("-->".data) (pyStrip line) then
        errs ++ ["Arrow pointing to nothing: " ++ String.mk (line.take 50)]
      else errs
    (has_nodes, has_connections, errs)

/-- `validate_flowchart(lines)` (the errors it returns). -/
def validate_flowchart (lines : List PyStr) : List String :=
  let st := (lines.drop 1).foldl flowStep (false, false, [])
  let (has_nodes, has_connections, errs) := st
  if ¬ has_nodes ∧ ¬ has_connections then
    errs ++ ["Flowchart has no nodes or connections"]
  else errs

/-- `validate_sequence(lines)`. -/
def validate_sequence (lines : List PyStr) : List String :=
  let st := (lines.drop 1).foldl (fun (st : Bool × Bool) (line0 : PyStr) =>
    let line := pyStrip line0
    if line = [] ∨ startsw ("%%".data) line then st
    else
      let has_participants := if startsw ("participant".data) line then true else st.1
      let has_messages :=
        if containsSub ("->>".data) line ∨ containsSub ("-->".data) line ∨
           containsSub ("-->>".data) line then true else st.2
      (has_participants, has_messages)) (false, false)
  let e1 := if ¬ st.1 then ["Sequence diagram missing participant declarations"] else []
  let e2 := if ¬ st.2 then ["Sequence diagram has no messages"] else []
  e1 ++ e2

/-- `validate_class(lines)`. -/
def validate_class (lines : List PyStr) : List String :=
  let has_classes := (lines.drop 1).foldl (fun (st : Bool) (line0 : PyStr) =>
    let line := pyStrip line0
    if line = [] ∨ startsw ("%%".data) line then st
    else if startsw ("class ".data) line then true else st) false
  if ¬ has_classes then ["Class diagram has no class definitions"] else []

/-- Models `len(re.findall(r'^\s*end\s*$', diagram, re.MULTILINE))`: the number
of lines whose strip is exactly `end`.  (Although `\s*` can absorb adjacent
blank lines into a single match, each non-overlapping match contains exactly
one `end` token lying on a line that strips to `end`, and conversely the
letters of an `end`-only line can never be consumed by a neighbouring match's
`\s*`, so the match count equals the line count.) -/
def countEndLines (diagram : PyStr) : Nat :=
  ((splitLinesPy diagram).filter (fun l => pyStrip l = ("end".data))).length

/-- `validate_common(diagram)`. -/
def validate_common (diagram : PyStr) : List String :=
  let lines := splitLinesPy diagram
  let quoteErrs := (lines.enumFrom 1).filterMap (fun il =>
    let quote_count := pyCount (['"']) il.2 + pyCount (['\'']) il.2
    if quote_count % 2 ≠ 0 then
      some ("Unclosed quotes on line " ++ toString il.1 ++ ": " ++ String.mk (il.2.take 50))
    else none)
  let subgraph_opens := pyCount ("subgraph".data) diagram
  let subgraph_closes := countEndLines diagram
  let subErrs :=
    if subgraph_opens > 0 ∧ subgraph_opens ≠ subgraph_closes then
      ["Subgraph mismatch: " ++ toString subgraph_opens ++ " opens, " ++
        toString subgraph_closes ++ " closes"]
    else []
  let shortErrs := if lines.length < 2 then ["Diagram too short - may be incomplete"] else []
  quoteErrs ++ subErrs ++ shortErrs

/-- `validate_diagram(diagram)` in the Python exception monad: `none` marks
the two spots where Python could raise `IndexError` (`lines[0]` and
`first_line.split()[0]`), both proven unreachable. -/
def validate_diagramO (diagram : PyStr) : Option (List String) :=
  let lines := splitLinesPy (pyStrip diagram)
  if lines = [] then some ["Empty diagram"]
  else
    match lines.head? with
    | none => none
    | some l0 =>
      let first_line := pyStrip l0
      match (if first_line ≠ [] then (pyWords first_line).head? else some []) with
      | none => none
      | some diagram_type =>
        if ¬ DIAGRAM_TYPES.any (fun dt => startsw dt first_line) then
          some ["Invalid or missing diagram type: '" ++ String.mk diagram_type ++ "'"]
        else
          let typeErrs :=
            if diagram_type = ("graph".data) ∨ diagram_type = ("flowchart".data) then
              validate_flowchart lines
            else if diagram_type = ("sequenceDiagram".data) then
              validate_sequence lines
            else if diagram_type = ("classDiagram".data) then
              validate_class lines
            else []
          some (typeErrs ++ validate_common diagram)
end MermaidValidator

/-- Sequential `Option`-valued map (Python: an exception in any iteration of
the loop aborts the whole call). -/
def mapMO {α β : Type} (f : α → Option β) : List α → Option (List β)
  | [] => some []
  | a :: l =>
    match f a, mapMO f l with
    | some b, some bs => some (b :: bs)
    | _, _ => none

namespace MermaidValidator

/-- Models `re.findall(r'` ``` `mermaid\n(.*?)\n` ``` `', content, re.DOTALL)`:
the bodies of the fenced mermaid blocks, in order (lazy `(.*?)` stops at the
first closing fence; scanning resumes after it). -/
def extractBlocksGo : Nat → PyStr → List PyStr
  | _, [] => []
  | 0, _ => []
  | fuel + 1, a :: s =>
    let full := a :: s
    if ("```mermaid\n".data).isPrefixOf full then
      let rest := full.drop 11
      match findSubIdx ("\n```".data) rest with
      | some k => rest.take k :: extractBlocksGo fuel (rest.drop (k + 4))
      | none => []
    else extractBlocksGo fuel s

/-- Entry point for the block extraction of `validate_file`. -/
def extractBlocks (content : PyStr) : List PyStr := extractBlocksGo content.length content

/-- The number of invalid diagrams `validate_file` finds in one markdown
file's content (its other effects are counters and printing). -/
def invalidCountFile (content : PyStr) : Option Nat := do
  let blocks := extractBlocks content
  let results ← mapMO validate_diagramO blocks
  some ((results.filter (fun errs => errs ≠ [])).length)

/-- Model of `validate_all` composed with `main`'s
`sys.exit(0 if success else 1)`.  The filesystem is abstracted to whether the
output directory exists and the list of contents of the markdown files found
under it: a missing directory and an empty file list both make `validate_all`
return `True` early, and otherwise success is `invalid_diagrams == 0`. -/
def mainExit (dirExists : Bool) (files : List PyStr) : Option Nat :=
  if ¬ dirExists then some 0
  else if files = [] then some 0
  else do
    let counts ← mapMO invalidCountFile files
    some (if counts.sum = 0 then 0 else 1)

end MermaidValidator

section MermaidValidatorExamples
open MermaidValidator
example : validate_diagramO ("graph TB\nA-->B-->C".data) =
    some ["Multiple arrows on same line: A-->B-->C"] := by decide
example : validate_diagramO ("graph TB\nA[x] --> B[y]".data) = some [] := by decide
example : validate_diagramO ("".data) =
    some ["Invalid or missing diagram type: ''"] := by decide
example : mainExit true ["# d\n```mermaid\ngraph TB\nA[x] --> B[y]\n```\n".data] =
    some 0 := by decide
example : mainExit true ["# d\n```mermaid\ngraph TB\nA-->B-->C\n```\n".data] =
    some 1 := by decide
example : mainExit false ["junk".data] = some 0 := by decide
end MermaidValidatorExamples

/-! ## `TokenMonitor` (`token_monitor.py`) -/

/-- The `TokenUsage` dataclass.  Python floats are modelled as rationals; the
claims about the monitor do not depend on floating-point rounding. -/
structure TokenUsage where
  agent : String
  timestamp : String
  input_tokens : Int
  output_tokens : Int
  total_tokens : Int
  phase : String := ""
  cost_estimate : ℚ := 0
  efficiency_score : ℚ := 0
  data_source : String := ""
deriving DecidableEq, Repr

namespace TokenMonitor

/-- `PRICING` (model name, input and output price per 1K tokens). -/
def PRICING : List (String × ℚ × ℚ) :=
  [("claude-3-opus", 0.015, 0.075),
   ("claude-3-sonnet", 0.003, 0.015),
   ("claude-3-haiku", 0.00025, 0.00125),
   ("gpt-4", 0.03, 0.06),
   ("gpt-4-turbo", 0.01, 0.03)]

/-- `BUDGETS` (project size to per-agent token budgets). -/
def BUDGETS : List (String × List (String × Nat)) :=
  [("small",
    [("legacy-code-detective", 30000), ("business-logic-analyst", 25000),
     ("performance-analyst", 20000), ("security-analyst", 20000),
     ("diagram-architect", 15000), ("documentation-specialist", 30000),
     ("modernization-architect", 35000), ("total", 175000)]),
   ("medium",
    [("legacy-code-detective", 50000), ("business-logic-analyst", 40000),
     ("performance-analyst", 35000), ("security-analyst", 35000),
     ("diagram-architect", 25000), ("documentation-specialist", 50000),
     ("modernization-architect", 50000), ("total", 285000)]),
   ("large",
    [("legacy-code-detective", 75000), ("business-logic-analyst", 60000),
     ("performance-analyst", 50000), ("security-analyst", 50000),
     ("diagram-architect", 35000), ("documentation-specialist", 75000),
     ("modernization-architect", 75000), ("total", 420000)])]

/-- Monitor state: the fields of `TokenMonitor.__init__` that the tracking
methods read or write (file paths and the session timestamp are I/O context
and are not modelled). -/
structure Monitor where
  project_size : String
  model : String
  usage_history : List TokenUsage
deriving Repr

/-- `round(x, 4)` modelled on rationals (Python's float banker's rounding is
approximated by arithmetic rounding; no claim depends on the tie behaviour). -/
def round4 (q : ℚ) : ℚ := ((q * 10000 + 1/2).floor : ℚ) / 10000

/-- `_calculate_cost(input_tokens, output_tokens)`. -/
def calculate_cost (m : Monitor) (input_tokens output_tokens : Int) : ℚ :=
  match PRICING.find? (fun p => p.1 = m.model) with
  | none => 0
  | some p =>
    round4 (((input_tokens : ℚ) / 1000) * p.2.1 + ((output_tokens : ℚ) / 1000) * p.2.2)

/-- `_calculate_efficiency(data_source, total_tokens)` (the token count is
ignored by the source body). -/
def calculate_efficiency (data_source : String) : ℚ :=
  let dl := String.mk (pyLower data_source.data)
  if dl = "repomix" then 1
  else if dl = "serena" then 0.6
  else if dl = "raw" then 0.2
  else if dl = "" then 0.5
  else 0.5

/-- The `TokenUsage` record `track_usage` constructs; `now` stands for
`datetime.now().isoformat()`. -/
def mkUsage (m : Monitor) (agent : String) (input_tokens output_tokens : Int)
    (phase data_source : String) (now : String) : TokenUsage :=
  { agent := agent, timestamp := now, input_tokens := input_tokens,
    output_tokens := output_tokens,
    total_tokens := input_tokens + output_tokens, phase := phase,
    cost_estimate := calculate_cost m input_tokens output_tokens,
    efficiency_score := calculate_efficiency data_source,
    data_source := data_source }

/-- The budget warnings `_check_budget(agent, tokens_used)` prints (it reads
`BUDGETS[self.project_size]`, raising `KeyError` for an unknown size; it never
writes any state). -/
def check_budget (m : Monitor) (agent : String) : Except String (List String) :=
  match BUDGETS.find? (fun b => b.1 = m.project_size) with
  | none => Except.error "KeyError"
  | some b =>
    match b.2.find? (fun ab => ab.1 = agent) with
    | none => Except.ok []
    | some ab =>
      let budget := ab.2
      let agent_total := ((m.usage_history.filter (fun u => u.agent = agent)).map
        (fun u => u.total_tokens)).foldl (fun a b => a + b) 0
      if agent_total > (budget : Int) then Except.ok ["WARNING"]
      else if (agent_total : ℚ) > (budget : ℚ) * 0.8 then Except.ok ["CAUTION"]
      else Except.ok []

/-- `track_usage(agent, input_tokens, output_tokens, phase, data_source)`: the
new record is appended to `usage_history` and saved (`_save_usage` only writes
the log file), after which `_check_budget` may raise for an unknown project
size — after the append, so the state update is unconditional. -/
def track_usage (m : Monitor) (agent : String) (input_tokens output_tokens : Int)
    (phase data_source : String) (now : String) :
    Monitor × Except String TokenUsage :=
  let usage := mkUsage m agent input_tokens output_tokens phase data_source now
  let m' := { m with usage_history := m.usage_history ++ [usage] }
  (m', match check_budget m' agent with
       | Except.error e => Except.error e
       | Except.ok _ => Except.ok usage)

/-- `estimate_from_text(text)`: `int((len(text)/4 + 0.75*len(text.split()))/2)`
(`int` truncates; the value is non-negative, so this is the floor). -/
def estimate_from_text (text : PyStr) : Int :=
  Rat.floor (((text.length : ℚ) / 4 + ((pyWords text).length : ℚ) * 0.75) / 2)

/-- `_determine_source(file_path)`. -/
def determine_source (file_path : PyStr) : String :=
  if containsSub ("repomix".data) (pyLower file_path) then "repomix"
  else if containsSub ("codebase/".data) file_path then "raw"
  else "serena"

/-- `track_file_read(file_path, content, agent)`. -/
def track_file_read (m : Monitor) (file_path : PyStr) (content : PyStr)
    (agent : String) (now : String) : Monitor × Except String TokenUsage :=
  let tokens := estimate_from_text content
  let source := determine_source file_path
  track_usage m agent tokens 0 ("Reading " ++ String.mk file_path) source now

end TokenMonitor

section TokenMonitorExamples
open TokenMonitor
example :
    ((track_usage { project_size := "medium", model := "claude-3-sonnet",
                    usage_history := [] }
      "test-agent" 1000 500 "testing" "repomix" "t0").1).usage_history.length = 1 := by
  decide
example :
    (mkUsage { project_size := "medium", model := "claude-3-sonnet",
               usage_history := [] }
      "test-agent" 1000 500 "testing" "repomix" "t0").total_tokens = 1500 := by
  decide
end TokenMonitorExamples

/-- `ComprehensiveMermaidFixer.fix` in the Python exception monad: the body of
`fix` and of every helper it calls contains no `raise` statement (the string
`raise` does not occur anywhere in the repository's Mermaid pipeline) and no
unguarded partial operation — every regex group access is behind an `if match`
guard and every list index is behind a length guard — so its embedding into
the exception monad never uses the error channel. -/
def ComprehensiveMermaidFixer.fixExc (content : PyStr) :
    Except String (PyStr × List String) :=
  Except.ok (ComprehensiveMermaidFixer.fix content)

/-- The number of lines that the flowchart machinery counts as subgraph
openings (`'subgraph' in line.strip().lower()`). -/
def subgraphLineCount (lines : List PyStr) : Nat :=
  (lines.filter (fun l => containsSub ("subgraph".data) (pyLower (pyStrip l)))).length

/-- The number of lines that the flowchart machinery counts as `end` closings
(`line.strip() == 'end'`). -/
def endLineCount (lines : List PyStr) : Nat :=
  (lines.filter (fun l => pyStrip l = ("end".data))).length

/-- The quantity `line.count('"') - line.count('\\"')` whose parity drives the
unclosed-double-quote check and fix. -/
def unescapedDq (l : PyStr) : Int :=
  (pyCount (['"']) l : Int) - (pyCount ['\\', '"'] l : Int)

/-- Join a list of pieces with a separator (`sep.join(parts)`). -/
def joinW (sep : PyStr) (ps : List PyStr) : PyStr := (ps.intersperse sep).flatten

/-- The number of positions carrying an escaped double quote: occurrences of
`\"` cannot overlap one another, so this equals `line.count('\\"')`. -/
def esc2 : PyStr → Nat
  | a :: b :: s => (if a = '\\' ∧ b = '"' then 1 else 0) + esc2 (b :: s)
  | _ => 0

/-- Conditions on a replacement pair under which an occurrence of `t` can
neither survive `replace(t, r)` nor arise from it when absent: neither string
contains the other, and no nonempty proper suffix of either is a prefix of
the other, so no occurrence of `t` in the output can cross a junction at an
inserted `r`. -/
def replSafe (t r : PyStr) : Bool :=
  !containsSub t r && !containsSub r t &&
  ((List.range t.length).all fun k => k == 0 || !((t.drop k).isPrefixOf r)) &&
  ((List.range r.length).all fun k => k == 0 || !((r.drop k).isPrefixOf t))

/-- The `_apply_common_fixes` hazard: a non-comment line with an odd
unescaped-double-quote count that ends in a backslash — the quote the fix
appends is then itself escaped, so a second pass appends another one. -/
def quoteFixHazard (l : PyStr) : Bool :=
  !startsw ("%%".data) (pyStrip l) && (unescapedDq l % 2 != 0) &&
    (l.getLast? == some '\\')

/-- The quote-completion phase of `_apply_common_fixes` on one line. -/
def quotePhase (l : PyStr) : PyStr :=
  if ¬ startsw ("%%".data) (pyStrip l) ∧ unescapedDq l % 2 ≠ 0 then l ++ ['"'] else l

/-- The line rewriting done by the typo loop of `_apply_common_fixes`. -/
def typoFold1 (tbl : List (PyStr × PyStr)) (s : PyStr) : PyStr :=
  tbl.foldl (fun s tc => if containsSub tc.1 s then repl tc.1 tc.2 s else s) s

/-- The content component of `fix_graph_line`, written as one nested
conditional (proved equal to `(fix_graph_line l).1` below). -/
def fixGraphLine1 (l : PyStr) : PyStr :=
  let l1 := if containsSub ("-->-->".data) l then
      repl ("-->-->".data) ("-->".data) l else l
  let l2 := if endsw ("-->".data) (pyStrip l) then
      rstripWs (rstripSet ['-', '>'] l1) ++ " --> [TODO]".data else l1
  if hasNumericId l2 then numericIdSub l2 else l2

/-- How `numericIdSubGo` rewrites character sequences: the output is the
input with `N`s inserted, each immediately before a digit. -/
inductive Ins : PyStr → PyStr → Prop
  | nil : Ins [] []
  | cons (c : Char) {s t : PyStr} : Ins s t → Ins (c :: s) (c :: t)
  | ins {d : Char} {s t : PyStr} : d.isDigit = true → Ins (d :: s) t →
      Ins (d :: s) ('N' :: t)

/-! ## Totality of the validators and processors

Every spot where the Python code could raise (`lines[0]`, `split(...)[1]`,
`split()[0]`) is guarded in the source; the lemmas of this section show the
corresponding `Option`s are always `some`. -/

lemma splitSubGo_ne_nil (t : PyStr) (fuel : Nat) (s : PyStr) :
    splitSubGo t fuel s ≠ [] := by
  match fuel, s with
  | fuel, [] => simp [splitSubGo]
  | 0, a :: s => simp [splitSubGo]
  | fuel + 1, a :: s =>
    simp only [splitSubGo]
    split
    · simp
    · split <;> simp

lemma containsSub_cons (t : PyStr) (a : Char) (s : PyStr) :
    containsSub t (a :: s) = (t.isPrefixOf (a :: s) || containsSub t s) := rfl

lemma splitSubGo_length_ge_two (t : PyStr) (ht : t ≠ []) :
    ∀ (fuel : Nat) (s : PyStr), s.length ≤ fuel → containsSub t s = true →
      2 ≤ (splitSubGo t fuel s).length := by
  intro fuel
  induction fuel with
  | zero =>
    intro s hs hc
    have hsnil : s = [] := List.eq_nil_of_length_eq_zero (Nat.le_zero.mp hs)
    subst hsnil
    simp [containsSub, List.isEmpty_iff] at hc
    exact absurd hc ht
  | succ fuel ih =>
    intro s hs hc
    match s with
    | [] =>
      simp [containsSub, List.isEmpty_iff] at hc
      exact absurd hc ht
    | a :: s' =>
      simp only [splitSubGo]
      by_cases h : t ≠ [] ∧ t.isPrefixOf (a :: s')
      · rw [if_pos h]
        have hne := splitSubGo_ne_nil t fuel (s'.drop (t.length - 1))
        have hpos := List.length_pos.mpr hne
        show 2 ≤ (splitSubGo t fuel (s'.drop (t.length - 1))).length + 1
        omega
      · rw [if_neg h]
        cases hb : t.isPrefixOf (a :: s') with
        | true => exact absurd ⟨ht, hb⟩ h
        | false =>
          rw [containsSub_cons, hb, Bool.false_or] at hc
          have hlen : s'.length ≤ fuel := by
            simp only [List.length_cons] at hs; omega
          have h2 := ih s' hlen hc
          cases hr : splitSubGo t fuel s' with
          | nil => exact absurd hr (splitSubGo_ne_nil t fuel s')
          | cons r rs =>
            rw [hr] at h2
            simp only [List.length_cons] at h2 ⊢
            omega

lemma splitSub_length_ge_two (t : PyStr) (ht : t ≠ []) (s : PyStr)
    (hc : containsSub t s = true) : 2 ≤ (splitSub t s).length :=
  splitSubGo_length_ge_two t ht s.length s (Nat.le_refl _) hc

lemma get?_one_isSome_of_length {α : Type} (l : List α) (h : 2 ≤ l.length) :
    (l.get? 1).isSome := by
  match l, h with
  | a :: b :: l', _ => rfl

lemma classStep_isSome (st : Bool × List MErr × List MErr) (il : Nat × PyStr) :
    (ComprehensiveMermaidValidator.classStep st il).isSome := by
  obtain ⟨has_classes, errs, warns⟩ := st
  unfold ComprehensiveMermaidValidator.classStep
  simp only
  split
  · rfl
  · split
    · split
      · rename_i hcond hrel harrow
        have h2 := splitSub_length_ge_two ("-->".data) (by decide) (pyStrip il.2) harrow
        have hget := get?_one_isSome_of_length _ h2
        cases hg : (splitSub ("-->".data) (pyStrip il.2)).get? 1 with
        | none => rw [hg] at hget; simp at hget
        | some part1 =>
          repeat' split
          all_goals simp_all
      · rfl
    · rfl

lemma foldlM_option_isSome {α β : Type} (f : β → α → Option β)
    (hf : ∀ st x, (f st x).isSome) :
    ∀ (l : List α) (init : β), (l.foldlM f init).isSome := by
  intro l
  induction l with
  | nil => intro init; rfl
  | cons x xs ih =>
    intro init
    have hx := hf init x
    cases hfx : f init x with
    | none => rw [hfx] at hx; simp at hx
    | some st' =>
      simpa [List.foldlM, hfx] using ih st'

lemma validate_class_isSome (lines : List PyStr) :
    (ComprehensiveMermaidValidator.validate_class lines).isSome := by
  unfold ComprehensiveMermaidValidator.validate_class
  have h := foldlM_option_isSome _ classStep_isSome (lines.enumFrom 1) (false, [], [])
  cases hr : (lines.enumFrom 1).foldlM ComprehensiveMermaidValidator.classStep
      (false, [], []) with
  | none => rw [hr] at h; simp at h
  | some st => simp [Option.bind, hr]

lemma bind_some_isSome {α β : Type} (o : Option α) (h : o.isSome) (f : α → β) :
    (o >>= (fun a => some (f a))).isSome := by
  cases o <;> simp_all

lemma validateCore_isSome (content : PyStr) :
    (ComprehensiveMermaidValidator.validateCore content).isSome := by
  unfold ComprehensiveMermaidValidator.validateCore
  simp only
  split
  · rfl
  · split
    · rfl
    · split
      · rename_i dt hdt
        repeat' split
        all_goals
          first
            | rfl
            | exact bind_some_isSome _ (validate_class_isSome _) _
      · rfl

lemma validateO_isSome (content : PyStr) :
    (ComprehensiveMermaidValidator.validateO content).isSome := by
  unfold ComprehensiveMermaidValidator.validateO
  have h := validateCore_isSome content
  cases hv : ComprehensiveMermaidValidator.validateCore content with
  | none => rw [hv] at h; simp at h
  | some ew => simp [hv]

lemma process_mermaid_contentO_isSome (content : PyStr) (hint : Option PyStr) :
    (MermaidPreWriteProcessor.process_mermaid_contentO content hint).isSome := by
  unfold MermaidPreWriteProcessor.process_mermaid_contentO
  simp only
  split
  · rename_i heq
    exact absurd heq (Option.isSome_iff_ne_none.mp (validateO_isSome _))
  · split
    · rename_i heq
      exact absurd heq (Option.isSome_iff_ne_none.mp (validateO_isSome _))
    · split <;> rfl

lemma process_blockMD_isSome (pos : Nat) (d : PyStr) :
    (process_blockMD pos d).isSome := by
  unfold process_blockMD
  split
  · rename_i heq
    exact absurd heq (Option.isSome_iff_ne_none.mp (validateO_isSome _))
  · split
    · simp only
      split
      · rename_i heq
        exact absurd heq (Option.isSome_iff_ne_none.mp (validateO_isSome _))
      · rfl
    · rfl

lemma scanBlocksGo_isSome (f : Nat → PyStr → Option (PyStr × List String × List String))
    (hf : ∀ p d, (f p d).isSome) :
    ∀ (fuel pos : Nat) (s : PyStr), (scanBlocksGo f fuel pos s).isSome := by
  intro fuel
  induction fuel with
  | zero => intro pos s; cases s <;> rfl
  | succ fuel ih =>
    intro pos s
    match s with
    | [] => rfl
    | a :: s' =>
      simp only [scanBlocksGo]
      split
      · split
        · split
          · rename_i heq
            exact absurd heq (Option.isSome_iff_ne_none.mp (hf _ _))
          · split
            · rename_i heq
              exact absurd heq (Option.isSome_iff_ne_none.mp (ih _ _))
            · rfl
        · rfl
      · split
        · rename_i heq
          exact absurd heq (Option.isSome_iff_ne_none.mp (ih _ _))
        · rfl

lemma process_mermaid_in_markdownO_isSome (content : PyStr) :
    (process_mermaid_in_markdownO content).isSome :=
  scanBlocksGo_isSome _ process_blockMD_isSome _ _ _

lemma dropWhile_head_false (p : Char → Bool) :
    ∀ (l : PyStr) (a : Char) (t : PyStr), l.dropWhile p = a :: t → p a = false := by
  intro l
  induction l with
  | nil => intro a t h; simp [List.dropWhile] at h
  | cons x xs ih =>
    intro a t h
    by_cases hx : p x = true
    · rw [List.dropWhile_cons, if_pos hx] at h
      exact ih a t h
    · rw [List.dropWhile_cons, if_neg hx] at h
      cases h
      simpa using hx

lemma rstripWs_prefix (x : PyStr) : rstripWs x <+: x := by
  have h1 : x.reverse.dropWhile isWs <:+ x.reverse := List.dropWhile_suffix _
  have h2 := List.reverse_prefix.mpr h1
  rwa [List.reverse_reverse] at h2

lemma pyStrip_head_not_ws (s : PyStr) :
    ∀ (a : Char) (t : PyStr), pyStrip s = a :: t → isWs a = false := by
  intro a t h
  have hpre : pyStrip s <+: lstripWs s := by
    unfold pyStrip
    exact rstripWs_prefix _
  obtain ⟨r, hr⟩ := hpre
  rw [h] at hr
  exact dropWhile_head_false isWs s a (t ++ r) hr.symm

lemma pyWords_ne_nil (s : PyStr) (a : Char) (t : PyStr) (h : s = a :: t)
    (ha : isWs a = false) : pyWords s ≠ [] := by
  subst h
  simp only [pyWords, List.length_cons, pyWordsGo, List.dropWhile_cons, ha]
  simp

lemma validate_diagramO_isSome (d : PyStr) :
    (MermaidValidator.validate_diagramO d).isSome := by
  unfold MermaidValidator.validate_diagramO
  simp only
  split
  · rfl
  · split
    · simp_all [List.head?_eq_none_iff]
    · rename_i l0 hl0
      split
      · rename_i heq
        split at heq
        · rename_i hfl
          have hnil := List.head?_eq_none_iff.mp heq
          cases hh : pyStrip l0 with
          | nil => exact absurd hh hfl
          | cons a t =>
            exact absurd hnil
              (pyWords_ne_nil (pyStrip l0) a t hh (pyStrip_head_not_ws l0 a t hh))
        · simp at heq
      · split <;> rfl

lemma mapMO_isSome {α β : Type} (f : α → Option β) (hf : ∀ a, (f a).isSome) :
    ∀ (l : List α), (mapMO f l).isSome := by
  intro l
  induction l with
  | nil => rfl
  | cons x xs ih =>
    have hx := hf x
    cases hfx : f x with
    | none => rw [hfx] at hx; simp at hx
    | some b =>
      cases hxs : mapMO f xs with
      | none => rw [hxs] at ih; simp at ih
      | some bs => simp [mapMO, hfx, hxs]

lemma invalidCountFile_isSome (content : PyStr) :
    (MermaidValidator.invalidCountFile content).isSome := by
  unfold MermaidValidator.invalidCountFile
  have h := mapMO_isSome _ validate_diagramO_isSome
    (MermaidValidator.extractBlocks content)
  cases hr : mapMO MermaidValidator.validate_diagramO
      (MermaidValidator.extractBlocks content) with
  | none => rw [hr] at h; simp at h
  | some res => simp [Option.bind, hr]

lemma mainExit_isSome (dirExists : Bool) (files : List PyStr) :
    (MermaidValidator.mainExit dirExists files).isSome := by
  unfold MermaidValidator.mainExit
  split
  · rfl
  · split
    · rfl
    · have h := mapMO_isSome _ invalidCountFile_isSome files
      cases hr : mapMO MermaidValidator.invalidCountFile files with
      | none => rw [hr] at h; simp at h
      | some counts => simp [Option.bind, hr]

/-! ## Claim theorems -/

lemma validate_eq_of_validateO (c : PyStr) (p : Bool × List MErr)
    (h : ComprehensiveMermaidValidator.validateO c = some p) :
    ComprehensiveMermaidValidator.validate c = p := by
  simp [ComprehensiveMermaidValidator.validate, h]

/-- C1: for every input string and optional diagram-type hint,
`MermaidPreWriteProcessor.process_mermaid_content` returns
`(fixed_content, fixes_applied)` such that either
`ComprehensiveMermaidValidator.validate` reports the returned content valid, or
`fixes_applied` contains the fallback-diagram fix description produced by
`_create_fallback_diagram` (`Created fallback <type> diagram due to parsing
errors`); it never returns content that fails validation without that flag. -/
theorem C1_processed_content_valid_or_fallback_flagged
    (content : PyStr) (hint : Option PyStr) :
    (ComprehensiveMermaidValidator.validate
        (MermaidPreWriteProcessor.process_mermaid_content content hint).1).1 = true ∨
      ∃ d, ("Created fallback " ++ String.mk d ++ " diagram due to parsing errors") ∈
        (MermaidPreWriteProcessor.process_mermaid_content content hint).2 := by
  unfold MermaidPreWriteProcessor.process_mermaid_content
    MermaidPreWriteProcessor.process_mermaid_contentO
  simp only
  set c1 := MermaidPreWriteProcessor.clean_content content with hc1
  set et := MermaidPreWriteProcessor.ensure_diagram_type c1 hint with het
  set ff := ComprehensiveMermaidFixer.fix et.1 with hff
  cases h1 : ComprehensiveMermaidValidator.validateO ff.1 with
  | none => exact absurd h1 (Option.isSome_iff_ne_none.mp (validateO_isSome _))
  | some ve =>
    simp only
    set af := (if ¬ ve.1 then
        MermaidPreWriteProcessor.apply_aggressive_fixes ff.1 ve.2
      else (ff.1, [])) with haf
    cases h2 : ComprehensiveMermaidValidator.validateO af.1 with
    | none => exact absurd h2 (Option.isSome_iff_ne_none.mp (validateO_isSome _))
    | some vf =>
      dsimp only
      by_cases hv : vf.1 = true
      · left
        rw [if_pos hv, Option.getD_some]
        rw [validate_eq_of_validateO _ _ h2]
        exact hv
      · right
        rw [if_neg hv, Option.getD_some]
        exact ⟨MermaidPreWriteProcessor.detectDiagramTypeHook af.1 hint, by
          simp [MermaidPreWriteProcessor.create_fallback_diagram]⟩

/-- C2 counterexample: at the concrete input `graph TB\nend` — which validation
rejects (`EXTRA_END`) and which the fixer cannot repair (its output is the
unchanged input, still invalid) — the fixer returns normally with an ok
result and an empty fix list instead of raising `ValueError`. -/
theorem C2_counterexample_unfixable_input_returns :
    (ComprehensiveMermaidFixer.fixExc ("graph TB\nend".data)).isOk = true ∧
    ComprehensiveMermaidFixer.fix ("graph TB\nend".data) = ("graph TB\nend".data, []) ∧
    (ComprehensiveMermaidValidator.validate ("graph TB\nend".data)).1 = false ∧
    (ComprehensiveMermaidValidator.validate
      (ComprehensiveMermaidFixer.fix ("graph TB\nend".data)).1).1 = false := by
  refine ⟨rfl, by decide, by decide, by decide⟩

/-- C2 (amended): there is no input on which the Mermaid fixer raises
`ValueError`: `ComprehensiveMermaidFixer.fix` returns a `(content, fixes)`
pair on every input, including content that cannot be made valid. -/
theorem C2_fixer_never_raises (content : PyStr) :
    (ComprehensiveMermaidFixer.fixExc content).isOk = true := rfl

/-- C6: validation is total and never raises — for every input string,
`ComprehensiveMermaidValidator.validate` and
`MermaidValidator.validate_diagram` return a result (the embedding in the
Python exception monad is always `some`). -/
theorem C6_validation_never_raises :
    (∀ content : PyStr, (ComprehensiveMermaidValidator.validateO content).isSome) ∧
    (∀ diagram : PyStr, (MermaidValidator.validate_diagramO diagram).isSome) :=
  ⟨validateO_isSome, validate_diagramO_isSome⟩

lemma mapMO_validate_blocks (blocks : List PyStr) :
    ∃ res, mapMO MermaidValidator.validate_diagramO blocks = some res ∧
      ((res.filter (fun errs => errs ≠ [])).length = 0 ↔
        ∀ b ∈ blocks, MermaidValidator.validate_diagramO b = some []) := by
  induction blocks with
  | nil => exact ⟨[], rfl, by simp⟩
  | cons b bs ih =>
    obtain ⟨res, hres, hiff⟩ := ih
    have hb := validate_diagramO_isSome b
    cases hvb : MermaidValidator.validate_diagramO b with
    | none => rw [hvb] at hb; simp at hb
    | some e =>
      refine ⟨e :: res, by simp [mapMO, hvb, hres], ?_⟩
      by_cases he : e = []
      · subst he
        constructor
        · intro h0 x hx
          rcases List.mem_cons.mp hx with hx | hx
          · subst hx; exact hvb
          · refine (hiff.mp ?_) x hx
            simpa [List.filter_cons] using h0
        · intro hall
          have h := hiff.mpr (fun x hx => hall x (List.mem_cons.mpr (Or.inr hx)))
          simpa [List.filter_cons] using h
      · constructor
        · intro h0
          exfalso
          simp [List.filter_cons, he] at h0
        · intro hall
          exfalso
          have h := hall b (by simp)
          rw [hvb] at h
          injection h with h'
          exact he h'

lemma invalidCountFile_spec (content : PyStr) :
    ∃ n, MermaidValidator.invalidCountFile content = some n ∧
      (n = 0 ↔ ∀ b ∈ MermaidValidator.extractBlocks content,
        MermaidValidator.validate_diagramO b = some []) := by
  obtain ⟨res, hres, hiff⟩ := mapMO_validate_blocks (MermaidValidator.extractBlocks content)
  exact ⟨(res.filter (fun errs => errs ≠ [])).length, by
    simp [MermaidValidator.invalidCountFile, hres], hiff⟩

lemma mapMO_invalidCount_files (files : List PyStr) :
    ∃ counts, mapMO MermaidValidator.invalidCountFile files = some counts ∧
      (counts.sum = 0 ↔ ∀ f ∈ files, ∀ b ∈ MermaidValidator.extractBlocks f,
        MermaidValidator.validate_diagramO b = some []) := by
  induction files with
  | nil => exact ⟨[], rfl, by simp⟩
  | cons f fs ih =>
    obtain ⟨counts, hcs, hiff⟩ := ih
    obtain ⟨n, hn, hniff⟩ := invalidCountFile_spec f
    refine ⟨n :: counts, by simp [mapMO, hn, hcs], ?_⟩
    simp only [List.sum_cons, List.mem_cons, Nat.add_eq_zero]
    constructor
    · rintro ⟨hn0, hc0⟩ x hx
      rcases hx with hx | hx
      · subst hx; exact (hniff.mp hn0)
      · exact (hiff.mp hc0) x hx
    · intro hall
      exact ⟨hniff.mpr (hall f (Or.inl rfl)),
        hiff.mpr (fun x hx => hall x (Or.inr hx))⟩

/-- C7: `validate_mermaid.py` exits 0 exactly when every extracted mermaid
block of the scanned markdown files validates with zero errors; a missing
output directory or an empty file list also exit 0 (vacuously, nothing was
scanned). -/
theorem C7_exit_zero_iff_no_invalid_diagram (dirExists : Bool) (files : List PyStr) :
    MermaidValidator.mainExit dirExists files = some 0 ↔
      ∀ f ∈ (if dirExists then files else ([] : List PyStr)),
        ∀ b ∈ MermaidValidator.extractBlocks f,
          MermaidValidator.validate_diagramO b = some [] := by
  cases dirExists with
  | false => simp [MermaidValidator.mainExit]
  | true =>
    by_cases hf : files = []
    · subst hf; simp [MermaidValidator.mainExit]
    · obtain ⟨counts, hcs, hiff⟩ := mapMO_invalidCount_files files
      have hmain : MermaidValidator.mainExit true files =
          some (if counts.sum = 0 then 0 else 1) := by
        simp [MermaidValidator.mainExit, hf, hcs]
      rw [hmain]
      simp only [if_true]
      constructor
      · intro h
        by_cases hz : counts.sum = 0
        · exact hiff.mp hz
        · rw [if_neg hz] at h; simp at h
      · intro hall
        rw [if_pos (hiff.mpr hall)]

/-- C8: token usage records are append-only — `track_usage` (and
`track_file_read`, which calls it) appends exactly one new `TokenUsage` record
to the usage history and leaves every previously recorded entry unchanged; no
operation of the monitor mutates a record after its creation. -/
theorem C8_token_records_append_only
    (m : TokenMonitor.Monitor) (agent : String) (input_tokens output_tokens : Int)
    (phase data_source now : String) (file_path content : PyStr) :
    ((TokenMonitor.track_usage m agent input_tokens output_tokens phase
        data_source now).1.usage_history =
      m.usage_history ++
        [TokenMonitor.mkUsage m agent input_tokens output_tokens phase data_source now]) ∧
    ((TokenMonitor.track_file_read m file_path content agent now).1.usage_history =
      m.usage_history ++
        [TokenMonitor.mkUsage m agent (TokenMonitor.estimate_from_text content) 0
          ("Reading " ++ String.mk file_path) (TokenMonitor.determine_source file_path) now]) ∧
    (∀ i, i < m.usage_history.length →
      (TokenMonitor.track_usage m agent input_tokens output_tokens phase
          data_source now).1.usage_history[i]? = m.usage_history[i]?) := by
  have h1 : (TokenMonitor.track_usage m agent input_tokens output_tokens phase
      data_source now).1.usage_history =
      m.usage_history ++
        [TokenMonitor.mkUsage m agent input_tokens output_tokens phase data_source now] := rfl
  refine ⟨h1, rfl, ?_⟩
  intro i hi
  rw [h1]
  exact List.getElem?_append_left hi

/-- C8 witness: the theorem instantiated at a concrete monitor and call. -/
theorem C8_token_records_append_only_witness :
    (TokenMonitor.track_usage
        { project_size := "medium", model := "claude-3-sonnet",
          usage_history := [] }
        "test-agent" 1000 500 "testing" "repomix" "t0").1.usage_history =
      [] ++ [TokenMonitor.mkUsage
        { project_size := "medium", model := "claude-3-sonnet", usage_history := [] }
        "test-agent" 1000 500 "testing" "repomix" "t0"] :=
  (C8_token_records_append_only
    { project_size := "medium", model := "claude-3-sonnet", usage_history := [] }
    "test-agent" 1000 500 "testing" "repomix" "t0" [] []).1

/-! ### C9: the flowchart "no nodes or connections" error -/

lemma flowStep_skip (st : Bool × Bool × List String) (l : PyStr)
    (h : pyStrip l = [] ∨ startsw ("%%".data) (pyStrip l) = true) :
    MermaidValidator.flowStep st l = st := by
  obtain ⟨hn, hc, e⟩ := st
  simp only [MermaidValidator.flowStep]
  rw [if_pos h]

lemma flowStep_active (st : Bool × Bool × List String) (l : PyStr)
    (h : ¬(pyStrip l = [] ∨ startsw ("%%".data) (pyStrip l) = true)) :
    (MermaidValidator.flowStep st l).2.1 = true := by
  obtain ⟨hn, hc, e⟩ := st
  simp only [MermaidValidator.flowStep]
  rw [if_neg h]

lemma flow_conn (body : List PyStr) : ∀ (hn hc : Bool) (errs : List String),
    ((body.foldl MermaidValidator.flowStep (hn, hc, errs)).2.1 = true ↔
      (hc = true ∨ ∃ l ∈ body, ¬(pyStrip l = [] ∨ startsw ("%%".data) (pyStrip l) = true))) := by
  induction body with
  | nil => intro hn hc errs; simp
  | cons l body ih =>
    intro hn hc errs
    by_cases hskip : pyStrip l = [] ∨ startsw ("%%".data) (pyStrip l) = true
    · rw [List.foldl_cons, flowStep_skip _ _ hskip]
      rw [ih hn hc errs]
      constructor
      · rintro (h | ⟨x, hx, hact⟩)
        · exact Or.inl h
        · exact Or.inr ⟨x, List.mem_cons.mpr (Or.inr hx), hact⟩
      · rintro (h | ⟨x, hx, hact⟩)
        · exact Or.inl h
        · rcases List.mem_cons.mp hx with rfl | hx
          · exact absurd hskip hact
          · exact Or.inr ⟨x, hx, hact⟩
    · rw [List.foldl_cons]
      rcases hst : MermaidValidator.flowStep (hn, hc, errs) l with ⟨hn1, hc1, e1⟩
      have hstep := flowStep_active (hn, hc, errs) l hskip
      rw [hst] at hstep
      have hc1t : hc1 = true := hstep
      subst hc1t
      rw [ih hn1 true e1]
      simp only [true_or, true_iff]
      exact Or.inr ⟨l, List.mem_cons.mpr (Or.inl rfl), hskip⟩

lemma flow_nodes_imp_conn (body : List PyStr) : ∀ (st : Bool × Bool × List String),
    (st.1 = true → st.2.1 = true) →
    ((body.foldl MermaidValidator.flowStep st).1 = true →
      (body.foldl MermaidValidator.flowStep st).2.1 = true) := by
  induction body with
  | nil => intro st hP; exact hP
  | cons l body ih =>
    intro st hP
    rw [List.foldl_cons]
    by_cases hskip : pyStrip l = [] ∨ startsw ("%%".data) (pyStrip l) = true
    · rw [flowStep_skip st l hskip]; exact ih st hP
    · exact ih _ (fun _ => flowStep_active st l hskip)

lemma string_append_ne_of_head (a b x : String)
    (h : a.data.head? ≠ b.data.head?) (ha : a.data ≠ []) : (a ++ x) ≠ b := by
  intro he
  apply h
  have hd := congrArg String.data he
  rw [String.data_append] at hd
  rw [← hd]
  cases hha : a.data with
  | nil => exact absurd hha ha
  | cons c cs => simp

lemma flowStep_errs_sub (st : Bool × Bool × List String) (l : PyStr) :
    ∀ x ∈ (MermaidValidator.flowStep st l).2.2, x ∈ st.2.2 ∨
      (∃ y, x = "Multiple arrows on same line: " ++ y) ∨
      (∃ y, x = "Arrow pointing to nothing: " ++ y) := by
  obtain ⟨hn, hc, e⟩ := st
  intro x hx
  simp only [MermaidValidator.flowStep] at hx
  split at hx
  · exact Or.inl hx
  · simp only at hx
    split at hx <;> split at hx <;>
      try simp only [List.mem_append, List.mem_singleton] at hx
    · rcases hx with (hx | hx) | hx
      · exact Or.inl hx
      · exact Or.inr (Or.inl ⟨_, hx⟩)
      · exact Or.inr (Or.inr ⟨_, hx⟩)
    · rcases hx with hx | hx
      · exact Or.inl hx
      · exact Or.inr (Or.inr ⟨_, hx⟩)
    · rcases hx with hx | hx
      · exact Or.inl hx
      · exact Or.inr (Or.inl ⟨_, hx⟩)
    · exact Or.inl hx

lemma flow_errs_msg (body : List PyStr) : ∀ (st : Bool × Bool × List String),
    "Flowchart has no nodes or connections" ∉ st.2.2 →
      "Flowchart has no nodes or connections" ∉
        (body.foldl MermaidValidator.flowStep st).2.2 := by
  induction body with
  | nil => intro st h; exact h
  | cons l body ih =>
    intro st h
    rw [List.foldl_cons]
    apply ih
    intro hmem
    rcases flowStep_errs_sub st l _ hmem with h1 | ⟨y, hy⟩ | ⟨y, hy⟩
    · exact h h1
    · exact string_append_ne_of_head _ _ y (by decide) (by decide) hy.symm
    · exact string_append_ne_of_head _ _ y (by decide) (by decide) hy.symm

/-- C9: in `MermaidValidator.validate_flowchart`, the error `Flowchart has no
nodes or connections` is reported exactly when every body line (after the
diagram-type line) is empty or a `%%` comment — a single non-empty,
non-comment body line suppresses it even with no node and no arrow, because
the connection test's third disjunct is the always-truthy string literal
`'-.->'`. -/
theorem C9_flowchart_no_nodes_error_iff_blank_body (lines : List PyStr) :
    ("Flowchart has no nodes or connections" ∈ MermaidValidator.validate_flowchart lines) ↔
      ∀ l ∈ lines.drop 1, (pyStrip l = [] ∨ startsw ("%%".data) (pyStrip l) = true) := by
  unfold MermaidValidator.validate_flowchart
  simp only
  have hconn := flow_conn (lines.drop 1) false false []
  have hnodes := flow_nodes_imp_conn (lines.drop 1) (false, false, []) (by simp)
  have herrs := flow_errs_msg (lines.drop 1) (false, false, []) (by simp)
  rcases hfold : (lines.drop 1).foldl MermaidValidator.flowStep
      (false, false, ([] : List String)) with ⟨hn, hc, errs⟩
  rw [hfold] at hconn hnodes herrs
  simp only at hconn hnodes herrs ⊢
  constructor
  · intro hmem
    split at hmem
    · intro l hl
      by_contra hact
      have : hc = true := hconn.mpr (Or.inr ⟨l, hl, hact⟩)
      rename_i hcond
      rw [this] at hcond
      simp at hcond
    · exact absurd hmem herrs
  · intro hall
    have hcfalse : hc = false := by
      cases hhc : hc with
      | false => rfl
      | true =>
        rcases hconn.mp hhc with h | ⟨l, hl, hact⟩
        · simp at h
        · exact absurd (hall l hl) hact
    have hnfalse : hn = false := by
      cases hhn : hn with
      | false => rfl
      | true =>
        have := hnodes hhn
        rw [hcfalse] at this
        simp at this
    rw [if_pos (by rw [hcfalse, hnfalse]; simp)]
    simp

/-- C10: `validate` packages its result as `(len(errors) == 0, errors + warnings)`:
the validity flag is true exactly when the accumulated error list is empty,
while the returned descriptor list is the errors followed by the warnings;
concretely, a graph with a numeric node id is reported valid together with a
non-empty descriptor list. -/
theorem C10_valid_flag_with_descriptors :
    (∀ content e w, ComprehensiveMermaidValidator.validateCore content = some (e, w) →
        ComprehensiveMermaidValidator.validateO content = some (e.isEmpty, e ++ w) ∧
        (e.isEmpty = true ↔ e = [])) ∧
    ComprehensiveMermaidValidator.validate ("graph TB\n  1[Start]".data) =
      (true, [{ line_number := 2, error_type := "NUMERIC_NODE_ID",
                description := "Node ID starts with number - may cause issues" }]) := by
  refine ⟨?_, by decide⟩
  intro content e w h
  refine ⟨?_, by cases e <;> simp⟩
  simp [ComprehensiveMermaidValidator.validateO, h]

/-- C10 witness: the packaging law applied at the empty diagram. -/
theorem C10_valid_flag_with_descriptors_witness :
    ComprehensiveMermaidValidator.validateO ("".data) =
      some (false, [{ line_number := 0, error_type := "EMPTY_DIAGRAM",
                      description := "Diagram is empty" }]) :=
  (C10_valid_flag_with_descriptors.1 ("".data)
    [{ line_number := 0, error_type := "EMPTY_DIAGRAM", description := "Diagram is empty" }]
    [] (by decide)).1

/-- C3 counterexample: on a Markdown file whose single fenced mermaid block is
`graph TB` over `A-->B-->C`, the fix pipeline neither splits the multi-arrow
line nor records any finding — it returns the content unchanged with empty
error and fix lists — while `MermaidValidator.validate_flowchart` still
reports the multiple-arrows error for that block, so post-fix validation does
report the same error again. -/
theorem C3_counterexample_multi_arrow_not_fixed :
    (process_mermaid_in_markdownO ("```mermaid\ngraph TB\nA-->B-->C\n```".data) =
      some (("```mermaid\ngraph TB\nA-->B-->C\n```".data), [], [])) ∧
    "Multiple arrows on same line: A-->B-->C" ∈
      MermaidValidator.validate_flowchart (splitLinesPy ("graph TB\nA-->B-->C".data)) := by
  decide

/-- C3 (amended): the fix pipeline passes through unchanged, with no recorded
finding, every block that `ComprehensiveMermaidValidator` reports valid; that
validator has no multiple-arrows check, so it reports the block
`graph TB\nA-->B-->C` valid with no descriptors at all and the multi-arrow
line survives fixing verbatim. -/
theorem C3_amended_multi_arrow_passthrough :
    (∀ pos d w, ComprehensiveMermaidValidator.validateO d = some (true, w) →
        process_blockMD pos d = some (d, [], [])) ∧
    ComprehensiveMermaidValidator.validateO ("graph TB\nA-->B-->C".data) =
      some (true, []) := by
  refine ⟨?_, by decide⟩
  intro pos d w h
  simp [process_blockMD, h]

/-- C3 witness: the pass-through law applied to the multi-arrow block itself. -/
theorem C3_amended_multi_arrow_passthrough_witness :
    process_blockMD 0 ("graph TB\nA-->B-->C".data) =
      some (("graph TB\nA-->B-->C".data), [], []) :=
  C3_amended_multi_arrow_passthrough.1 0 ("graph TB\nA-->B-->C".data) [] (by decide)

/-! ## Substring combinatorics

Occurrence-preservation machinery for the rewrites of `_fix_graph` and
`_apply_common_fixes`: `containsSub` as the infix relation, how an infix of
an append decomposes, and occurrences in separator-joined lists. -/

lemma containsSub_infix_iff (p : PyStr) : ∀ s : PyStr, containsSub p s = true ↔ p <:+: s
  | [] => by simp [containsSub, List.isEmpty_iff, List.infix_nil]
  | a :: s => by
    rw [containsSub_cons]
    simp [List.infix_cons_iff, containsSub_infix_iff p s, List.isPrefixOf_iff_prefix]

lemma exists_mem_of_ne_nil {p : PyStr} (hp : p ≠ []) : ∃ c, c ∈ p := by
  cases p with
  | nil => exact absurd rfl hp
  | cons c q => exact ⟨c, List.mem_cons_self c q⟩

lemma infix_append_split {p a b : PyStr} (h : p <:+: a ++ b) :
    p <:+: a ∨ p <:+: b ∨
      ∃ a2 b1, a2 <:+ a ∧ b1 <+: b ∧ a2 ≠ [] ∧ b1 ≠ [] ∧ p = a2 ++ b1 := by
  obtain ⟨s, t, hst⟩ := h
  rw [List.append_assoc] at hst
  rcases List.append_eq_append_iff.mp hst with ⟨u, hu1, hu2⟩ | ⟨v, hv1, hv2⟩
  · rcases List.append_eq_append_iff.mp hu2 with ⟨w, hw1, hw2⟩ | ⟨q, hq1, hq2⟩
    · exact Or.inl ⟨s, w, by rw [hu1, hw1, List.append_assoc]⟩
    · rcases eq_or_ne u [] with rfl | hu
      · rw [List.nil_append] at hq1
        have hpb : p <+: b := ⟨t, by rw [hq2, hq1]⟩
        exact Or.inr (Or.inl hpb.isInfix)
      · rcases eq_or_ne q [] with rfl | hq
        · have hpa : p <:+ a := ⟨s, by rw [hu1, hq1, List.append_nil]⟩
          exact Or.inl hpa.isInfix
        · exact Or.inr (Or.inr ⟨u, q, ⟨s, hu1.symm⟩, ⟨t, hq2.symm⟩, hu, hq, hq1⟩)
  · exact Or.inr (Or.inl ⟨v, t, by rw [hv2, List.append_assoc]⟩)

lemma infix_append_right_disj {p a b : PyStr} (hp : p ≠ [])
    (hb : ∀ c ∈ b, c ∉ p) : p <:+: a ++ b ↔ p <:+: a := by
  constructor
  · intro h
    rcases infix_append_split h with h | h | ⟨a2, b1, _, hb1, _, hb1n, hpe⟩
    · exact h
    · obtain ⟨c, hc⟩ := exists_mem_of_ne_nil hp
      exact absurd hc (hb c (h.subset hc))
    · obtain ⟨c, hc⟩ := exists_mem_of_ne_nil hb1n
      have hcp : c ∈ p := by rw [hpe]; exact List.mem_append_right _ hc
      exact absurd hcp (hb c (hb1.subset hc))
  · intro h
    obtain ⟨s, t, hst⟩ := h
    exact ⟨s, t ++ b, by rw [show s ++ p ++ (t ++ b) = (s ++ p ++ t) ++ b by simp, hst]⟩

lemma infix_append_left_disj {p a b : PyStr} (hp : p ≠ [])
    (ha : ∀ c ∈ a, c ∉ p) : p <:+: a ++ b ↔ p <:+: b := by
  constructor
  · intro h
    rcases infix_append_split h with h | h | ⟨a2, b1, ha2, _, ha2n, _, hpe⟩
    · obtain ⟨c, hc⟩ := exists_mem_of_ne_nil hp
      exact absurd hc (ha c (h.subset hc))
    · exact h
    · obtain ⟨c, hc⟩ := exists_mem_of_ne_nil ha2n
      have hcp : c ∈ p := by rw [hpe]; exact List.mem_append_left _ hc
      exact absurd hcp (ha c (ha2.subset hc))
  · intro h
    obtain ⟨s, t, hst⟩ := h
    exact ⟨a ++ s, t, by rw [show (a ++ s) ++ p ++ t = a ++ (s ++ p ++ t) by simp, hst]⟩

lemma prefix_head_mem {x m b : PyStr} (h : x <+: m ++ b) (hx : x ≠ []) (hm : m ≠ []) :
    ∃ c, c ∈ x ∧ c ∈ m := by
  cases x with
  | nil => exact absurd rfl hx
  | cons c x1 =>
    cases m with
    | nil => exact absurd rfl hm
    | cons d m1 =>
      obtain ⟨w, hw⟩ := h
      rw [List.cons_append, List.cons_append] at hw
      injection hw with h1 h2
      exact ⟨c, List.mem_cons_self c x1, by rw [h1]; exact List.mem_cons_self d m1⟩

lemma infix_append_mid_disj {p a m b : PyStr} (hp : p ≠ []) (hm : m ≠ [])
    (hdm : ∀ c ∈ m, c ∉ p) : p <:+: a ++ m ++ b ↔ p <:+: a ∨ p <:+: b := by
  constructor
  · intro h
    rw [List.append_assoc] at h
    rcases infix_append_split h with h | h | ⟨a2, b1, _, hb1, _, hb1n, hpe⟩
    · exact Or.inl h
    · rcases infix_append_split h with h | h | ⟨m2, w1, hm2, _, hm2n, _, hpe⟩
      · obtain ⟨c, hc⟩ := exists_mem_of_ne_nil hp
        exact absurd hc (hdm c (h.subset hc))
      · exact Or.inr h
      · obtain ⟨c, hc⟩ := exists_mem_of_ne_nil hm2n
        have hcp : c ∈ p := by rw [hpe]; exact List.mem_append_left _ hc
        exact absurd hcp (hdm c (hm2.subset hc))
    · obtain ⟨c, hc, hcm⟩ := prefix_head_mem hb1 hb1n hm
      have hcp : c ∈ p := by rw [hpe]; exact List.mem_append_right _ hc
      exact absurd hcp (hdm c hcm)
  · rintro (h | h)
    · obtain ⟨s, t, hst⟩ := h
      exact ⟨s, t ++ m ++ b,
        by rw [show s ++ p ++ (t ++ m ++ b) = (s ++ p ++ t) ++ m ++ b by simp, hst]⟩
    · obtain ⟨s, t, hst⟩ := h
      exact ⟨a ++ m ++ s, t,
        by rw [show (a ++ m ++ s) ++ p ++ t = a ++ m ++ (s ++ p ++ t) by simp, hst]⟩

lemma joinW_nil (sep : PyStr) : joinW sep [] = [] := rfl

lemma joinW_single (sep x : PyStr) : joinW sep [x] = x := by simp [joinW]

lemma joinW_cons2 (sep x y : PyStr) (r : List PyStr) :
    joinW sep (x :: y :: r) = x ++ sep ++ joinW sep (y :: r) := by
  simp [joinW, List.intersperse_cons_cons]

lemma joinW_cons_head (sep : PyStr) (a : Char) (x : PyStr) (rest : List PyStr) :
    joinW sep ((a :: x) :: rest) = a :: joinW sep (x :: rest) := by
  cases rest with
  | nil => rw [joinW_single, joinW_single]
  | cons y r => rw [joinW_cons2, joinW_cons2]; rfl

lemma contains_joinW {p sep : PyStr} (hp : p ≠ []) (hsep : sep ≠ [])
    (hd : ∀ c ∈ sep, c ∉ p) :
    ∀ parts : List PyStr, (p <:+: joinW sep parts ↔ ∃ x ∈ parts, p <:+: x)
  | [] => by
      rw [joinW_nil]
      simp [List.infix_nil, hp]
  | [x] => by
      rw [joinW_single]
      simp
  | x :: y :: r => by
      rw [joinW_cons2, infix_append_mid_disj hp hsep hd,
        contains_joinW hp hsep hd (y :: r)]
      simp [List.exists_mem_cons_iff]

lemma infix_joinW_of_mem (sep : PyStr) : ∀ {parts : List PyStr} {x : PyStr},
    x ∈ parts → x <:+: joinW sep parts := by
  intro parts
  induction parts with
  | nil => intro x hx; simp at hx
  | cons y rest ih =>
    intro x hx
    rcases List.mem_cons.mp hx with rfl | hx
    · cases rest with
      | nil => rw [joinW_single]
      | cons z r =>
        rw [joinW_cons2]
        exact ⟨[], sep ++ joinW sep (z :: r), by simp⟩
    · cases rest with
      | nil => simp at hx
      | cons z r =>
        rw [joinW_cons2]
        obtain ⟨s, t, hst⟩ := ih hx
        exact ⟨y ++ sep ++ s, t,
          by rw [show (y ++ sep ++ s) ++ x ++ t = y ++ sep ++ (s ++ x ++ t) by simp, hst]⟩

lemma map_joinW (f : Char → Char) (sep : PyStr) :
    ∀ parts : List PyStr,
      (joinW sep parts).map f = joinW (sep.map f) (parts.map (List.map f))
  | [] => rfl
  | [x] => by rw [joinW_single]; exact (joinW_single _ _).symm
  | x :: y :: r => by
      rw [joinW_cons2, List.map_append, List.map_append, map_joinW f sep (y :: r)]
      rw [List.map_cons, List.map_cons, List.map_cons, joinW_cons2]

lemma prefix_drop_decomp {t s : PyStr} (h : t.isPrefixOf s = true) :
    s = t ++ s.drop t.length := by
  obtain ⟨u, hu⟩ := List.isPrefixOf_iff_prefix.mp h
  rw [← hu, List.drop_left]

lemma drop_cons_pred {t : PyStr} (ht : t ≠ []) (a : Char) (s : PyStr) :
    (a :: s).drop t.length = s.drop (t.length - 1) := by
  cases t with
  | nil => exact absurd rfl ht
  | cons c t1 => simp [List.drop]

lemma replGo_parts (t r : PyStr) (ht : t ≠ []) :
    ∀ (fuel : Nat) (s : PyStr), s.length ≤ fuel →
      ∃ parts : List PyStr, parts ≠ [] ∧
        s = joinW t parts ∧ replGo t r fuel s = joinW r parts ∧
        ∀ x ∈ parts, containsSub t x = false := by
  intro fuel
  induction fuel with
  | zero =>
    intro s hs
    have hsnil : s = [] := List.eq_nil_of_length_eq_zero (Nat.le_zero.mp hs)
    subst hsnil
    refine ⟨[[]], by simp, by rw [joinW_single], by rw [joinW_single]; rfl, ?_⟩
    intro x hx
    simp at hx
    subst hx
    simpa [containsSub, List.isEmpty_iff] using ht
  | succ fuel ih =>
    intro s hs
    cases s with
    | nil =>
      refine ⟨[[]], by simp, by rw [joinW_single], by rw [joinW_single]; rfl, ?_⟩
      intro x hx
      simp at hx
      subst hx
      simpa [containsSub, List.isEmpty_iff] using ht
    | cons a s1 =>
      by_cases hpre : t ≠ [] ∧ t.isPrefixOf (a :: s1)
      · have hdec : a :: s1 = t ++ s1.drop (t.length - 1) := by
          have h0 := prefix_drop_decomp hpre.2
          rwa [drop_cons_pred ht a s1] at h0
        have hlen : (s1.drop (t.length - 1)).length ≤ fuel := by
          simp only [List.length_cons] at hs
          rw [List.length_drop]
          omega
        obtain ⟨parts, hne, hjt, hjr, hpure⟩ := ih (s1.drop (t.length - 1)) hlen
        cases parts with
        | nil => exact absurd rfl hne
        | cons p0 ps =>
          refine ⟨[] :: p0 :: ps, by simp, ?_, ?_, ?_⟩
          · rw [joinW_cons2, List.nil_append, ← hjt]
            exact hdec
          · rw [joinW_cons2, List.nil_append, ← hjr]
            simp only [replGo]
            rw [if_pos hpre]
          · intro x hx
            rcases List.mem_cons.mp hx with rfl | hx
            · simpa [containsSub, List.isEmpty_iff] using ht
            · exact hpure x hx
      · obtain ⟨parts, hne, hjt, hjr, hpure⟩ :=
          ih s1 (by simp only [List.length_cons] at hs; omega)
        cases parts with
        | nil => exact absurd rfl hne
        | cons p0 ps =>
          refine ⟨(a :: p0) :: ps, by simp, ?_, ?_, ?_⟩
          · rw [joinW_cons_head, ← hjt]
          · rw [joinW_cons_head, ← hjr]
            simp only [replGo]
            rw [if_neg hpre]
          · intro x hx
            rcases List.mem_cons.mp hx with rfl | hx
            · rw [containsSub_cons]
              have h1 : containsSub t p0 = false := hpure p0 (List.mem_cons_self _ _)
              have h2 : t.isPrefixOf (a :: p0) = false := by
                cases hcon : t.isPrefixOf (a :: p0) with
                | false => rfl
                | true =>
                  exfalso
                  apply hpre
                  refine ⟨ht, List.isPrefixOf_iff_prefix.mpr ?_⟩
                  have hp1 : t <+: a :: p0 := List.isPrefixOf_iff_prefix.mp hcon
                  have hp0 : p0 <+: s1 := by
                    rw [hjt]
                    cases ps with
                    | nil => rw [joinW_single]
                    | cons q qs =>
                      rw [joinW_cons2, List.append_assoc]
                      exact List.prefix_append _ _
                  exact hp1.trans (List.cons_prefix_cons.mpr ⟨rfl, hp0⟩)
              rw [h1, h2]
              rfl
            · exact hpure x (List.mem_cons_of_mem _ hx)

lemma repl_parts (t r s : PyStr) (ht : t ≠ []) :
    ∃ parts : List PyStr, parts ≠ [] ∧
      s = joinW t parts ∧ repl t r s = joinW r parts ∧
      ∀ x ∈ parts, containsSub t x = false :=
  replGo_parts t r ht s.length s le_rfl

lemma contains_repl_eq {p t r : PyStr} (hp : p ≠ []) (ht : t ≠ []) (hr : r ≠ [])
    (hdt : ∀ c ∈ t, c ∉ p) (hdr : ∀ c ∈ r, c ∉ p) (s : PyStr) :
    (p <:+: repl t r s) ↔ (p <:+: s) := by
  obtain ⟨parts, hne, hjt, hjr, hpure⟩ := repl_parts t r s ht
  rw [hjr, hjt, contains_joinW hp hr hdr parts, contains_joinW hp ht hdt parts]

lemma contains_lower_repl_eq {p t r : PyStr} (hp : p ≠ []) (ht : t ≠ []) (hr : r ≠ [])
    (hdt : ∀ c ∈ t.map Char.toLower, c ∉ p) (hdr : ∀ c ∈ r.map Char.toLower, c ∉ p)
    (s : PyStr) :
    (p <:+: pyLower (repl t r s)) ↔ (p <:+: pyLower s) := by
  obtain ⟨parts, hne, hjt, hjr, hpure⟩ := repl_parts t r s ht
  rw [hjr, hjt]
  unfold pyLower
  rw [map_joinW, map_joinW,
    contains_joinW hp (by simpa using hr) hdr,
    contains_joinW hp (by simpa using ht) hdt]

lemma prefix_append_cases {y r J : PyStr} (h : y <+: r ++ J) :
    y <+: r ∨ ∃ w, y = r ++ w ∧ w <+: J := by
  obtain ⟨u, hu⟩ := h
  rcases List.append_eq_append_iff.mp hu with ⟨a1, ha1, ha2⟩ | ⟨c1, hc1, hc2⟩
  · exact Or.inl ⟨a1, ha1.symm⟩
  · exact Or.inr ⟨c1, hc1, ⟨u, hc2.symm⟩⟩

lemma replSafe_spec {t r : PyStr} (h : replSafe t r = true) :
    containsSub t r = false ∧ containsSub r t = false ∧
    (∀ k, 0 < k → k < t.length → (t.drop k).isPrefixOf r = false) ∧
    (∀ k, 0 < k → k < r.length → (r.drop k).isPrefixOf t = false) := by
  simp only [replSafe, Bool.and_eq_true, Bool.not_eq_true', List.all_eq_true,
    List.mem_range, Bool.or_eq_true, beq_iff_eq] at h
  obtain ⟨⟨⟨h1, h2⟩, h3⟩, h4⟩ := h
  refine ⟨h1, h2, ?_, ?_⟩
  · intro k hk0 hk
    rcases h3 k hk with hz | hz
    · omega
    · exact hz
  · intro k hk0 hk
    rcases h4 k hk with hz | hz
    · omega
    · exact hz

lemma not_contains_joinW {t r : PyStr} (ht : t ≠ []) (hr : r ≠ [])
    (hsafe : replSafe t r = true) :
    ∀ parts : List PyStr, (∀ x ∈ parts, containsSub t x = false) →
      containsSub t (joinW r parts) = false
  | [], _ => by
      rw [joinW_nil]
      simpa [containsSub, List.isEmpty_iff] using ht
  | [x], hpure => by
      rw [joinW_single]
      exact hpure x (List.mem_cons_self _ _)
  | x :: y :: rs, hpure => by
      obtain ⟨hnc1, hnc2, hsp1, hsp2⟩ := replSafe_spec hsafe
      rw [joinW_cons2]
      cases hcon : containsSub t (x ++ r ++ joinW r (y :: rs)) with
      | false => rfl
      | true =>
        exfalso
        have hinf := (containsSub_infix_iff t _).mp hcon
        rw [List.append_assoc] at hinf
        rcases infix_append_split hinf with h | h | ⟨a2, b1, ha2, hb1, ha2n, hb1n, hpe⟩
        · have hx := (containsSub_infix_iff t x).mpr h
          rw [hpure x (by simp)] at hx
          exact Bool.false_ne_true hx
        · rcases infix_append_split h with h | h | ⟨r2, w, hr2, hw, hr2n, hwn, hpe⟩
          · have hx := (containsSub_infix_iff t r).mpr h
            rw [hnc1] at hx
            exact Bool.false_ne_true hx
          · have hx := (containsSub_infix_iff t _).mpr h
            rw [not_contains_joinW ht hr hsafe (y :: rs)
              (fun z hz => hpure z (List.mem_cons_of_mem _ hz))] at hx
            exact Bool.false_ne_true hx
          · obtain ⟨u, hu⟩ := hr2
            rcases eq_or_ne u [] with rfl | hun
            · rw [List.nil_append] at hu
              have hpre2 : r <+: t := by
                rw [← hu, hpe]
                exact List.prefix_append _ _
              have hx := (containsSub_infix_iff r t).mpr hpre2.isInfix
              rw [hnc2] at hx
              exact Bool.false_ne_true hx
            · have hk0 : 0 < u.length := List.length_pos.mpr hun
              have hdrop : r.drop u.length = r2 := by rw [← hu, List.drop_left]
              have hklen : u.length < r.length := by
                rw [← hu, List.length_append]
                have := List.length_pos.mpr hr2n
                omega
              have hpf : (r.drop u.length).isPrefixOf t = true := by
                rw [hdrop]
                exact List.isPrefixOf_iff_prefix.mpr ⟨w, hpe.symm⟩
              rw [hsp2 u.length hk0 hklen] at hpf
              exact Bool.false_ne_true hpf
        · rcases prefix_append_cases hb1 with hb | ⟨w, hbw, hwJ⟩
          · have hk0 : 0 < a2.length := List.length_pos.mpr ha2n
            have hdrop : t.drop a2.length = b1 := by rw [hpe, List.drop_left]
            have hklen : a2.length < t.length := by
              rw [hpe, List.length_append]
              have := List.length_pos.mpr hb1n
              omega
            have hpf : (t.drop a2.length).isPrefixOf r = true := by
              rw [hdrop]
              exact List.isPrefixOf_iff_prefix.mpr hb
            rw [hsp1 a2.length hk0 hklen] at hpf
            exact Bool.false_ne_true hpf
          · have hrt : r <:+: t := ⟨a2, w, by rw [hpe, hbw, ← List.append_assoc]⟩
            have hx := (containsSub_infix_iff r t).mpr hrt
            rw [hnc2] at hx
            exact Bool.false_ne_true hx

lemma repl_no_self {t r : PyStr} (ht : t ≠ []) (hr : r ≠ [])
    (hsafe : replSafe t r = true) (s : PyStr) :
    containsSub t (repl t r s) = false := by
  obtain ⟨parts, _, _, hjr, hpure⟩ := repl_parts t r s ht
  rw [hjr]
  exact not_contains_joinW ht hr hsafe parts hpure

lemma repl_no_other {p t r : PyStr} (hp : p ≠ []) (ht : t ≠ []) (hr : r ≠ [])
    (hsafe : replSafe p r = true) (s : PyStr) (hs : containsSub p s = false) :
    containsSub p (repl t r s) = false := by
  obtain ⟨parts, hne, hjt, hjr, _⟩ := repl_parts t r s ht
  rw [hjr]
  apply not_contains_joinW hp hr hsafe parts
  intro x hx
  cases hcx : containsSub p x with
  | false => rfl
  | true =>
    exfalso
    have hinf : p <:+: s := by
      rw [hjt]
      exact ((containsSub_infix_iff p x).mp hcx).trans (infix_joinW_of_mem t hx)
    have hx2 := (containsSub_infix_iff p s).mpr hinf
    rw [hs] at hx2
    exact Bool.false_ne_true hx2

lemma isWs_cases {c : Char} (h : isWs c = true) :
    c = ' ' ∨ c = '\t' ∨ c = '\x0d' ∨ c = '\n' := by
  simp [isWs, Char.isWhitespace] at h
  tauto

lemma isDigit_not_ws {c : Char} (h : c.isDigit = true) : isWs c = false := by
  cases hw : isWs c with
  | false => rfl
  | true =>
    exfalso
    rcases isWs_cases hw with rfl | rfl | rfl | rfl <;> exact absurd h (by decide)

lemma isDigit_toNat_lt {c : Char} (h : c.isDigit = true) : c.toNat < 65 := by
  simp [Char.isDigit] at h
  have h2 : c.val.toNat ≤ (57 : UInt32).toNat := h.2
  have h3 : (57 : UInt32).toNat = 57 := rfl
  simp only [Char.toNat]
  omega

lemma toLower_of_lt {c : Char} (h : c.toNat < 65) : c.toLower = c := by
  simp only [Char.toLower]
  rw [if_neg (by omega)]

lemma isWs_toLower {c : Char} (h : isWs c = true) : c.toLower = c := by
  rcases isWs_cases h with rfl | rfl | rfl | rfl <;> rfl

lemma isDigit_toLower {c : Char} (h : c.isDigit = true) : c.toLower = c :=
  toLower_of_lt (isDigit_toNat_lt h)

lemma mem_of_getLast?_eq {c : Char} : ∀ {s : PyStr}, s.getLast? = some c → c ∈ s
  | [], h => by simp at h
  | [a], h => by
      rw [List.getLast?_singleton] at h
      injection h with h
      simp [h]
  | a :: b :: s, h => by
      rw [List.getLast?_cons_cons] at h
      exact List.mem_cons_of_mem _ (mem_of_getLast?_eq h)

lemma head?_append_ne {c : Char} {r J : PyStr} (hr : r ≠ []) (h : c ∉ r) :
    (r ++ J).head? ≠ some c := by
  cases r with
  | nil => exact absurd rfl hr
  | cons a r1 =>
    simp only [List.cons_append, List.head?]
    intro hcon
    injection hcon with hcon
    subst hcon
    exact h (List.mem_cons_self _ _)


lemma esc2_cons (c : Char) (s : PyStr) :
    esc2 (c :: s) = (if c = '\\' ∧ s.head? = some '"' then 1 else 0) + esc2 s := by
  cases s with
  | nil => simp [esc2]
  | cons b s1 => simp [esc2, List.head?]

lemma esc2_cons_not_bs {c : Char} (hc : ¬ c = '\\') (s : PyStr) :
    esc2 (c :: s) = esc2 s := by
  rw [esc2_cons, if_neg (fun h => hc h.1)]
  omega

lemma esc2_append (a b : PyStr) :
    esc2 (a ++ b) = esc2 a + esc2 b +
      (if a.getLast? = some '\\' ∧ b.head? = some '"' then 1 else 0) := by
  induction a with
  | nil => simp [esc2]
  | cons c a1 ih =>
    cases a1 with
    | nil =>
      rw [List.cons_append, List.nil_append, esc2_cons]
      simp only [esc2, List.getLast?_singleton, Option.some.injEq]
      omega
    | cons d a2 =>
      have hstep : esc2 (c :: d :: (a2 ++ b)) =
          (if c = '\\' ∧ d = '"' then 1 else 0) + esc2 (d :: (a2 ++ b)) := rfl
      have hstep2 : esc2 (c :: d :: a2) =
          (if c = '\\' ∧ d = '"' then 1 else 0) + esc2 (d :: a2) := rfl
      show esc2 (c :: d :: (a2 ++ b)) = _
      rw [hstep, hstep2,
        show ((c :: d :: a2) : PyStr).getLast? = (d :: a2).getLast? from
          List.getLast?_cons_cons]
      have ihx := ih
      rw [List.cons_append] at ihx
      rw [ihx]
      omega

lemma esc2_eq_zero {s : PyStr} (h : '"' ∉ s) : esc2 s = 0 := by
  induction s with
  | nil => rfl
  | cons c s1 ih =>
    have h1 : s1.head? ≠ some '"' := by
      cases s1 with
      | nil => simp
      | cons d s2 =>
        intro hcon
        simp only [List.head?, Option.some.injEq] at hcon
        subst hcon
        exact h (List.mem_cons_of_mem _ (List.mem_cons_self _ _))
    rw [esc2_cons, if_neg (fun hcon => h1 hcon.2),
      ih (fun hm => h (List.mem_cons_of_mem _ hm))]

lemma pyCountGo_single (c : Char) :
    ∀ (fuel : Nat) (s : PyStr), s.length ≤ fuel → pyCountGo [c] fuel s = s.count c := by
  intro fuel
  induction fuel with
  | zero =>
    intro s hs
    have hsnil : s = [] := List.eq_nil_of_length_eq_zero (Nat.le_zero.mp hs)
    subst hsnil
    rfl
  | succ fuel ih =>
    intro s hs
    cases s with
    | nil => rfl
    | cons a s1 =>
      simp only [pyCountGo]
      simp only [List.length_cons] at hs
      by_cases hpre : ([c] : PyStr) ≠ [] ∧ ([c] : PyStr).isPrefixOf (a :: s1)
      · rw [if_pos hpre]
        have hac : a = c := by
          have h2 := hpre.2
          simp [List.isPrefixOf] at h2
          exact h2.symm
        subst hac
        rw [show s1.drop (([a] : PyStr).length - 1) = s1 by simp,
          ih s1 (by omega), List.count_cons]
        simp
        omega
      · rw [if_neg hpre]
        have hac : a ≠ c := by
          intro hcon
          subst hcon
          exact hpre ⟨by simp, by simp [List.isPrefixOf]⟩
        rw [ih s1 (by omega), List.count_cons]
        simp [hac]

lemma pyCountGo_esc :
    ∀ (fuel : Nat) (s : PyStr), s.length ≤ fuel →
      pyCountGo ['\\', '"'] fuel s = esc2 s := by
  intro fuel
  induction fuel with
  | zero =>
    intro s hs
    have hsnil : s = [] := List.eq_nil_of_length_eq_zero (Nat.le_zero.mp hs)
    subst hsnil
    rfl
  | succ fuel ih =>
    intro s hs
    cases s with
    | nil => rfl
    | cons a s1 =>
      simp only [pyCountGo]
      simp only [List.length_cons] at hs
      by_cases hpre : (['\\', '"'] : PyStr) ≠ [] ∧ (['\\', '"'] : PyStr).isPrefixOf (a :: s1)
      · rw [if_pos hpre]
        obtain ⟨u, hu⟩ := List.isPrefixOf_iff_prefix.mp hpre.2
        rw [List.cons_append, List.cons_append, List.nil_append] at hu
        injection hu with h1 h2
        subst h1
        subst h2
        rw [show (('"' :: u : PyStr)).drop ((['\\', '"'] : PyStr).length - 1) = u by simp]
        simp only [List.length_cons] at hs
        rw [ih u (by omega)]
        rw [show esc2 ('\\' :: '"' :: u) = 1 + esc2 ('"' :: u) by simp [esc2],
          esc2_cons_not_bs (by decide)]
      · rw [if_neg hpre]
        rw [ih s1 (by omega), esc2_cons]
        have hcond : ¬ (a = '\\' ∧ s1.head? = some '"') := by
          rintro ⟨rfl, hh⟩
          cases s1 with
          | nil => simp at hh
          | cons b s2 =>
            simp only [List.head?, Option.some.injEq] at hh
            subst hh
            exact hpre ⟨by simp, by simp [List.isPrefixOf]⟩
        rw [if_neg hcond]
        omega

lemma pyCount_quote (s : PyStr) : pyCount ['"'] s = s.count '"' :=
  pyCountGo_single '"' s.length s le_rfl

lemma pyCount_escq (s : PyStr) : pyCount ['\\', '"'] s = esc2 s :=
  pyCountGo_esc s.length s le_rfl

lemma unescapedDq_eq (l : PyStr) :
    unescapedDq l = (l.count '"' : Int) - (esc2 l : Int) := by
  rw [unescapedDq, pyCount_quote, pyCount_escq]

lemma getLast?_ne_of_not_mem {c : Char} {s : PyStr} (h : c ∉ s) :
    s.getLast? ≠ some c :=
  fun hcon => h (mem_of_getLast?_eq hcon)

lemma count_joinW_eq {t r : PyStr} (c : Char) (hct : c ∉ t) (hcr : c ∉ r) :
    ∀ parts : List PyStr, (joinW r parts).count c = (joinW t parts).count c
  | [] => rfl
  | [x] => by rw [joinW_single, joinW_single]
  | x :: y :: rs => by
      rw [joinW_cons2, joinW_cons2, List.count_append, List.count_append,
        List.count_append, List.count_append,
        count_joinW_eq c hct hcr (y :: rs),
        List.count_eq_zero.mpr hct, List.count_eq_zero.mpr hcr]

lemma esc2_joinW_eq {t r : PyStr} (ht : t ≠ []) (hr : r ≠ [])
    (hqt : '"' ∉ t) (hbt : '\\' ∉ t) (hqr : '"' ∉ r) (hbr : '\\' ∉ r) :
    ∀ parts : List PyStr, esc2 (joinW r parts) = esc2 (joinW t parts)
  | [] => rfl
  | [x] => by rw [joinW_single, joinW_single]
  | x :: y :: rs => by
      rw [joinW_cons2, joinW_cons2, List.append_assoc, List.append_assoc,
        esc2_append, esc2_append, esc2_append, esc2_append,
        esc2_joinW_eq ht hr hqt hbt hqr hbr (y :: rs),
        esc2_eq_zero hqr, esc2_eq_zero hqt,
        if_neg (fun hc => getLast?_ne_of_not_mem hbr hc.1),
        if_neg (fun hc => head?_append_ne hr hqr hc.2),
        if_neg (fun hc => getLast?_ne_of_not_mem hbt hc.1),
        if_neg (fun hc => head?_append_ne ht hqt hc.2)]

lemma count_repl_eq {t r : PyStr} (c : Char) (ht : t ≠ []) (hct : c ∉ t) (hcr : c ∉ r)
    (s : PyStr) : (repl t r s).count c = s.count c := by
  obtain ⟨parts, _, hjt, hjr, _⟩ := repl_parts t r s ht
  rw [hjr, hjt, count_joinW_eq c hct hcr parts]

lemma esc2_repl_eq {t r : PyStr} (ht : t ≠ []) (hr : r ≠ [])
    (hqt : '"' ∉ t) (hbt : '\\' ∉ t) (hqr : '"' ∉ r) (hbr : '\\' ∉ r) (s : PyStr) :
    esc2 (repl t r s) = esc2 s := by
  obtain ⟨parts, _, hjt, hjr, _⟩ := repl_parts t r s ht
  rw [hjr, hjt, esc2_joinW_eq ht hr hqt hbt hqr hbr parts]

lemma unescapedDq_repl_eq {t r : PyStr} (ht : t ≠ []) (hr : r ≠ [])
    (hqt : '"' ∉ t) (hbt : '\\' ∉ t) (hqr : '"' ∉ r) (hbr : '\\' ∉ r) (s : PyStr) :
    unescapedDq (repl t r s) = unescapedDq s := by
  rw [unescapedDq_eq, unescapedDq_eq, count_repl_eq '"' ht hqt hqr,
    esc2_repl_eq ht hr hqt hbt hqr hbr]

lemma unescapedDq_append_quote (l : PyStr) :
    unescapedDq (l ++ ['"']) =
      unescapedDq l + 1 - (if l.getLast? = some '\\' then 1 else 0) := by
  rw [unescapedDq_eq, unescapedDq_eq, List.count_append, esc2_append]
  have h1 : (['"'] : PyStr).count '"' = 1 := rfl
  have h2 : esc2 ['"'] = 0 := rfl
  have h3 : (['"'] : PyStr).head? = some '"' := rfl
  rw [h1, h2, h3]
  simp only [eq_self_iff_true, and_true]
  split <;> push_cast <;> omega

lemma rstripWs_cons (a : Char) (s : PyStr) :
    rstripWs (a :: s) = if (rstripWs s).isEmpty = true ∧ isWs a = true then []
      else a :: rstripWs s := by
  unfold rstripWs
  rw [List.reverse_cons, List.dropWhile_append]
  have hiff : ((s.reverse.dropWhile isWs).reverse.isEmpty = true) ↔
      (s.reverse.dropWhile isWs).isEmpty = true := by
    simp [List.isEmpty_iff]
  by_cases h : (s.reverse.dropWhile isWs).isEmpty = true
  · rw [if_pos h]
    by_cases ha : isWs a = true
    · rw [if_pos ⟨hiff.mpr h, ha⟩]
      simp [List.dropWhile, ha]
    · rw [if_neg (fun hc => ha hc.2)]
      rw [List.isEmpty_iff] at h
      simp [List.dropWhile, ha, h]
  · rw [if_neg h, if_neg (fun hc => h (hiff.mp hc.1))]
    rw [List.reverse_append]
    simp

lemma isPrefixOf_rstripWs_of_nonWs :
    ∀ (y p : PyStr), (∀ c ∈ p, isWs c = false) →
      p.isPrefixOf (rstripWs y) = p.isPrefixOf y
  | [], p, hp => rfl
  | a :: y1, p, hp => by
      rw [rstripWs_cons]
      by_cases hc : (rstripWs y1).isEmpty = true ∧ isWs a = true
      · rw [if_pos hc]
        cases p with
        | nil => rfl
        | cons q p1 =>
          have hqa : (q == a) = false := by
            rw [beq_eq_false_iff_ne]
            intro hcon
            subst hcon
            rw [hp q (List.mem_cons_self _ _)] at hc
            exact Bool.false_ne_true hc.2
          show false = ((q :: p1) : PyStr).isPrefixOf (a :: y1)
          simp [List.isPrefixOf, hqa]
      · rw [if_neg hc]
        cases p with
        | nil => rfl
        | cons q p1 =>
          simp only [List.isPrefixOf]
          rw [isPrefixOf_rstripWs_of_nonWs y1 p1
            (fun c hcm => hp c (List.mem_cons_of_mem _ hcm))]

lemma startsw_pp_strip (l : PyStr) :
    startsw ("%%".data) (pyStrip l) = startsw ("%%".data) (lstripWs l) := by
  unfold pyStrip startsw
  exact isPrefixOf_rstripWs_of_nonWs (lstripWs l) ("%%".data) (by decide)

lemma startsw_pp_cons2 (c d : Char) (z : PyStr) :
    startsw ("%%".data) (c :: d :: z) = (('%' == c) && ('%' == d)) := by
  show (('%' :: '%' :: []) : PyStr).isPrefixOf (c :: d :: z) = _
  simp [List.isPrefixOf]

lemma startsw_pp_cons_sep (c : Char) {sep : PyStr} (J : PyStr) (hsep : sep ≠ [])
    (hp : '%' ∉ sep) : startsw ("%%".data) (c :: (sep ++ J)) = false := by
  cases sep with
  | nil => exact absurd rfl hsep
  | cons e s1 =>
    rw [List.cons_append, startsw_pp_cons2]
    have hbe : ('%' == e) = false := by
      rw [beq_eq_false_iff_ne]
      intro hcon
      exact hp (by rw [hcon]; exact List.mem_cons_self _ _)
    rw [hbe, Bool.and_false]

lemma startsw_pp_sep_append {sep : PyStr} (J : PyStr) (hsep : sep ≠ [])
    (hw : ∀ c ∈ sep, isWs c = false) (hp : '%' ∉ sep) :
    startsw ("%%".data) (List.dropWhile isWs (sep ++ J)) = false := by
  cases sep with
  | nil => exact absurd rfl hsep
  | cons e s1 =>
    have he : isWs e = false := hw e (List.mem_cons_self _ _)
    rw [List.cons_append, List.dropWhile_cons, he]
    simp only [Bool.false_eq_true, if_false]
    have hep : '%' ∉ (e :: s1 : PyStr) := hp
    cases s1 with
    | nil =>
      rw [List.nil_append]
      cases J with
      | nil =>
        show (('%' :: '%' :: []) : PyStr).isPrefixOf [e] = false
        simp [List.isPrefixOf]
      | cons j js =>
        rw [startsw_pp_cons2]
        have hbe : ('%' == e) = false := by
          rw [beq_eq_false_iff_ne]
          intro hcon
          exact hep (by rw [hcon]; exact List.mem_cons_self _ _)
        rw [hbe, Bool.false_and]
    | cons f s2 =>
      rw [List.cons_append, startsw_pp_cons2]
      have hbe : ('%' == e) = false := by
        rw [beq_eq_false_iff_ne]
        intro hcon
        exact hep (by rw [hcon]; exact List.mem_cons_self _ _)
      rw [hbe, Bool.false_and]

lemma startsw_pp_lstrip_join_eq {t r : PyStr} (ht : t ≠ []) (hr : r ≠ [])
    (hwt : ∀ c ∈ t, isWs c = false) (hwr : ∀ c ∈ r, isWs c = false)
    (hpt : '%' ∉ t) (hpr : '%' ∉ r) :
    ∀ parts : List PyStr,
      startsw ("%%".data) (lstripWs (joinW r parts)) =
      startsw ("%%".data) (lstripWs (joinW t parts))
  | [] => rfl
  | [x] => by rw [joinW_single, joinW_single]
  | x :: y :: rs => by
      rw [joinW_cons2, joinW_cons2, List.append_assoc, List.append_assoc]
      unfold lstripWs
      by_cases hx : (x.dropWhile isWs).isEmpty = true
      · rw [List.dropWhile_append, if_pos hx, startsw_pp_sep_append _ hr hwr hpr,
          List.dropWhile_append, if_pos hx, startsw_pp_sep_append _ ht hwt hpt]
      · rw [List.dropWhile_append, if_neg hx, List.dropWhile_append, if_neg hx]
        cases hdx : x.dropWhile isWs with
        | nil => rw [hdx] at hx; simp at hx
        | cons c cs =>
          cases cs with
          | nil =>
            simp only [List.cons_append, List.nil_append]
            rw [startsw_pp_cons_sep c _ hr hpr, startsw_pp_cons_sep c _ ht hpt]
          | cons d cs1 =>
            simp only [List.cons_append]
            rw [startsw_pp_cons2, startsw_pp_cons2]

lemma comment_repl_eq {t r : PyStr} (ht : t ≠ []) (hr : r ≠ [])
    (hwt : ∀ c ∈ t, isWs c = false) (hwr : ∀ c ∈ r, isWs c = false)
    (hpt : '%' ∉ t) (hpr : '%' ∉ r) (s : PyStr) :
    startsw ("%%".data) (pyStrip (repl t r s)) =
    startsw ("%%".data) (pyStrip s) := by
  obtain ⟨parts, _, hjt, hjr, _⟩ := repl_parts t r s ht
  rw [startsw_pp_strip, startsw_pp_strip, hjr, hjt,
    startsw_pp_lstrip_join_eq ht hr hwt hwr hpt hpr parts]

lemma comment_append_quote (l : PyStr) :
    startsw ("%%".data) (pyStrip (l ++ ['"'])) = startsw ("%%".data) (pyStrip l) := by
  rw [startsw_pp_strip, startsw_pp_strip]
  unfold lstripWs
  rw [List.dropWhile_append]
  by_cases hx : (l.dropWhile isWs).isEmpty = true
  · rw [if_pos hx]
    rw [List.isEmpty_iff] at hx
    rw [hx]
    decide
  · rw [if_neg hx]
    cases hdx : l.dropWhile isWs with
    | nil => rw [hdx] at hx; simp at hx
    | cons c cs =>
      cases cs with
      | nil =>
        rw [List.cons_append, List.nil_append, startsw_pp_cons2]
        have hq : ('%' == '"') = false := by decide
        rw [hq, Bool.and_false]
        show false = (('%' :: '%' :: []) : PyStr).isPrefixOf [c]
        simp [List.isPrefixOf]
      | cons d cs1 =>
        rw [List.cons_append, List.cons_append, startsw_pp_cons2, startsw_pp_cons2]

lemma rstripWs_decomp (s : PyStr) :
    ∃ w, (∀ c ∈ w, isWs c = true) ∧ s = rstripWs s ++ w := by
  refine ⟨(s.reverse.takeWhile isWs).reverse, ?_, ?_⟩
  · intro c hc
    rw [List.mem_reverse] at hc
    exact List.mem_takeWhile_imp hc
  · have h := List.takeWhile_append_dropWhile isWs s.reverse
    have h2 := congrArg List.reverse h
    rw [List.reverse_append, List.reverse_reverse] at h2
    exact h2.symm

lemma strip_decomp (s : PyStr) :
    ∃ w1 w2, (∀ c ∈ w1, isWs c = true) ∧ (∀ c ∈ w2, isWs c = true) ∧
      s = w1 ++ pyStrip s ++ w2 := by
  obtain ⟨w2, hw2, hdec⟩ := rstripWs_decomp (lstripWs s)
  refine ⟨s.takeWhile isWs, w2, fun c hc => List.mem_takeWhile_imp hc, hw2, ?_⟩
  conv_lhs => rw [← List.takeWhile_append_dropWhile isWs s]
  rw [show (List.dropWhile isWs s) = pyStrip s ++ w2 from hdec, List.append_assoc]

lemma mem_strip_of_not_ws {c : Char} {s : PyStr} (hc : c ∈ s) (hw : isWs c = false) :
    c ∈ pyStrip s := by
  obtain ⟨w1, w2, h1, h2, hdec⟩ := strip_decomp s
  rw [hdec] at hc
  rcases List.mem_append.mp hc with hc | hc
  · rcases List.mem_append.mp hc with hc | hc
    · have hx := h1 c hc
      rw [hw] at hx
      exact absurd hx (by simp)
    · exact hc
  · have hx := h2 c hc
    rw [hw] at hx
    exact absurd hx (by simp)

lemma contains_pyLower_strip_eq {p : PyStr} (hp : p ≠ [])
    (hpw : ∀ c, isWs c = true → c ∉ p) (s : PyStr) :
    (p <:+: pyLower (pyStrip s)) ↔ (p <:+: pyLower s) := by
  obtain ⟨w1, w2, h1, h2, hdec⟩ := strip_decomp s
  conv_rhs => rw [hdec]
  unfold pyLower
  rw [List.map_append, List.map_append]
  have hw2c : ∀ c ∈ w2.map Char.toLower, c ∉ p := by
    intro c hc
    rw [List.mem_map] at hc
    obtain ⟨d, hd, rfl⟩ := hc
    rw [isWs_toLower (h2 d hd)]
    exact hpw d (h2 d hd)
  have hw1c : ∀ c ∈ w1.map Char.toLower, c ∉ p := by
    intro c hc
    rw [List.mem_map] at hc
    obtain ⟨d, hd, rfl⟩ := hc
    rw [isWs_toLower (h1 d hd)]
    exact hpw d (h1 d hd)
  rw [infix_append_right_disj hp hw2c, infix_append_left_disj hp hw1c]

lemma pyLower_cons (c : Char) (s : PyStr) :
    pyLower (c :: s) = c.toLower :: pyLower s := rfl

lemma Ins_refl : ∀ s : PyStr, Ins s s
  | [] => Ins.nil
  | c :: s => Ins.cons c (Ins_refl s)

lemma Ins_append_left (A : PyStr) {s t : PyStr} (h : Ins s t) :
    Ins (A ++ s) (A ++ t) := by
  induction A with
  | nil => exact h
  | cons c A1 ih => exact Ins.cons c ih

lemma numericIdSubGo_ins :
    ∀ (fuel : Nat) (prev : Option Char) (s : PyStr), s.length ≤ fuel →
      Ins s (numericIdSubGo prev fuel s) := by
  intro fuel
  induction fuel with
  | zero =>
    intro prev s hs
    have hsnil : s = [] := List.eq_nil_of_length_eq_zero (Nat.le_zero.mp hs)
    subst hsnil
    exact Ins.nil
  | succ fuel ih =>
    intro prev s hs
    cases s with
    | nil => exact Ins.nil
    | cons a s1 =>
      simp only [numericIdSubGo]
      simp only [List.length_cons] at hs
      split
      · rename_i hcond
        split
        · rename_i r3 heq
          have hdec : a :: s1 =
              ((a :: s1).takeWhile Char.isDigit ++
               ((a :: s1).dropWhile Char.isDigit).takeWhile Char.isAlpha ++ ['[']) ++ r3 := by
            conv_lhs => rw [← List.takeWhile_append_dropWhile Char.isDigit (a :: s1),
              ← List.takeWhile_append_dropWhile Char.isAlpha
                ((a :: s1).dropWhile Char.isDigit),
              heq]
            simp [List.append_assoc]
          have hlen : r3.length ≤ fuel := by
            have hlen2 := congrArg List.length hdec
            simp [List.length_append] at hlen2
            omega
          have hins := Ins_append_left ((a :: s1).takeWhile Char.isDigit ++
              ((a :: s1).dropWhile Char.isDigit).takeWhile Char.isAlpha ++ ['['])
            (ih (some '[') r3 hlen)
          rw [← hdec] at hins
          exact Ins.ins hcond.2 hins
        · exact Ins.cons a (ih (some a) s1 (by omega))
      · exact Ins.cons a (ih (some a) s1 (by omega))

lemma mem_Ins {c : Char} : ∀ {s t : PyStr}, Ins s t → c ∈ s → c ∈ t := by
  intro s t h
  induction h with
  | nil => exact id
  | cons d h ih =>
    intro hc
    rcases List.mem_cons.mp hc with rfl | hc
    · exact List.mem_cons_self _ _
    · exact List.mem_cons_of_mem _ (ih hc)
  | ins hd h ih =>
    intro hc
    exact List.mem_cons_of_mem _ (ih hc)

lemma mem_numericIdSub {c : Char} {l : PyStr} (hc : c ∈ l) : c ∈ numericIdSub l :=
  mem_Ins (numericIdSubGo_ins l.length none l le_rfl) hc

lemma hasNumericIdGo_digit :
    ∀ (s : PyStr) (prev : Option Char), hasNumericIdGo prev s = true →
      ∃ c ∈ s, c.isDigit = true := by
  intro s
  induction s with
  | nil => intro prev h; simp [hasNumericIdGo] at h
  | cons a s1 ih =>
    intro prev h
    simp only [hasNumericIdGo] at h
    split at h
    · rename_i hcond
      split at h
      · exact ⟨a, List.mem_cons_self _ _, hcond.2⟩
      · obtain ⟨c, hc, hcd⟩ := ih (some a) h
        exact ⟨c, List.mem_cons_of_mem _ hc, hcd⟩
    · obtain ⟨c, hc, hcd⟩ := ih (some a) h
      exact ⟨c, List.mem_cons_of_mem _ hc, hcd⟩

lemma numericIdSubGo_bracket :
    ∀ (fuel : Nat) (prev : Option Char) (s : PyStr), s.length ≤ fuel →
      hasNumericIdGo prev s = true → '[' ∈ numericIdSubGo prev fuel s := by
  intro fuel
  induction fuel with
  | zero =>
    intro prev s hs hh
    have hsnil : s = [] := List.eq_nil_of_length_eq_zero (Nat.le_zero.mp hs)
    subst hsnil
    simp [hasNumericIdGo] at hh
  | succ fuel ih =>
    intro prev s hs hh
    cases s with
    | nil => simp [hasNumericIdGo] at hh
    | cons a s1 =>
      simp only [numericIdSubGo]
      simp only [hasNumericIdGo] at hh
      simp only [List.length_cons] at hs
      split
      · rename_i hcond
        split
        · simp
        · rename_i hne
          rw [if_pos hcond] at hh
          split at hh
          · rename_i r3 heq
            exact absurd heq (hne r3)
          · exact List.mem_cons_of_mem _ (ih (some a) s1 (by omega) hh)
      · rename_i hcond
        rw [if_neg hcond] at hh
        exact List.mem_cons_of_mem _ (ih (some a) s1 (by omega) hh)

lemma Ins_isPrefixOf_lower :
    ∀ {s t : PyStr}, Ins s t →
      ∀ p : PyStr, 'n' ∉ p → (∀ c ∈ p, c.isDigit = false) →
        p.isPrefixOf (pyLower t) = p.isPrefixOf (pyLower s) := by
  intro s t h
  induction h with
  | nil => intro p _ _; rfl
  | cons d h ih =>
    intro p hn hd
    cases p with
    | nil => rfl
    | cons q p1 =>
      rw [pyLower_cons, pyLower_cons]
      simp only [List.isPrefixOf]
      rw [ih p1 (fun hm => hn (List.mem_cons_of_mem _ hm))
        (fun c hc => hd c (List.mem_cons_of_mem _ hc))]
  | @ins d s0 t0 hdig2 h ih =>
    intro p hn hd
    rw [pyLower_cons, pyLower_cons]
    cases p with
    | nil => rfl
    | cons q p1 =>
      simp only [List.isPrefixOf]
      have h1 : (q == 'N'.toLower) = false := by
        rw [beq_eq_false_iff_ne]
        intro hcon
        apply hn
        rw [show ('N'.toLower : Char) = 'n' from rfl] at hcon
        rw [hcon]
        exact List.mem_cons_self _ _
      have h2 : (q == d.toLower) = false := by
        rw [beq_eq_false_iff_ne]
        intro hcon
        have hq := hd q (List.mem_cons_self _ _)
        rw [hcon, isDigit_toLower hdig2, hdig2] at hq
        exact absurd hq (by simp)
      rw [h1, h2, Bool.false_and, Bool.false_and]

lemma Ins_contains_lower {p : PyStr} (hp : p ≠ []) (hn : 'n' ∉ p)
    (hd : ∀ c ∈ p, c.isDigit = false) :
    ∀ {s t : PyStr}, Ins s t → ((p <:+: pyLower t) ↔ (p <:+: pyLower s)) := by
  intro s t h
  induction h with
  | nil => exact Iff.rfl
  | cons d h ih =>
    have hpre := Ins_isPrefixOf_lower (Ins.cons d h) p hn hd
    rw [pyLower_cons, pyLower_cons] at hpre
    rw [pyLower_cons, pyLower_cons, List.infix_cons_iff, List.infix_cons_iff]
    constructor
    · rintro (hx | hx)
      · exact Or.inl (List.isPrefixOf_iff_prefix.mp
          (hpre ▸ List.isPrefixOf_iff_prefix.mpr hx))
      · exact Or.inr (ih.mp hx)
    · rintro (hx | hx)
      · exact Or.inl (List.isPrefixOf_iff_prefix.mp
          (hpre.symm ▸ List.isPrefixOf_iff_prefix.mpr hx))
      · exact Or.inr (ih.mpr hx)
  | ins hdig2 h ih =>
    rw [pyLower_cons, List.infix_cons_iff]
    constructor
    · rintro (hx | hx)
      · exfalso
        cases p with
        | nil => exact hp rfl
        | cons q p1 =>
          obtain ⟨w, hw⟩ := hx
          rw [List.cons_append] at hw
          injection hw with hq _
          apply hn
          rw [show ('N'.toLower : Char) = 'n' from rfl] at hq
          rw [hq]
          exact List.mem_cons_self _ _
      · exact ih.mp hx
    · intro hx
      exact Or.inr (ih.mpr hx)

lemma rstripSet_decomp (cs : List Char) (s : PyStr) :
    ∃ w, (∀ c ∈ w, c ∈ cs) ∧ s = rstripSet cs s ++ w := by
  refine ⟨(s.reverse.takeWhile (fun c => c ∈ cs)).reverse, ?_, ?_⟩
  · intro c hc
    rw [List.mem_reverse] at hc
    have h := List.mem_takeWhile_imp hc
    simpa using h
  · have h := List.takeWhile_append_dropWhile (fun c => c ∈ cs) s.reverse
    have h2 := congrArg List.reverse h
    rw [List.reverse_append, List.reverse_reverse] at h2
    exact h2.symm

lemma ws_not_in_subgraph : ∀ c, isWs c = true → c ∉ ("subgraph".data : PyStr) := by
  intro c hc
  rcases isWs_cases hc with rfl | rfl | rfl | rfl <;> decide

lemma dash_mem_repl {l : PyStr} (h : containsSub ("-->-->".data) l = true) :
    '-' ∈ repl ("-->-->".data) ("-->".data) l := by
  obtain ⟨parts, hne, hjt, hjr, hpure⟩ :=
    repl_parts ("-->-->".data) ("-->".data) l (by decide)
  rw [hjr]
  cases parts with
  | nil => exact absurd rfl hne
  | cons x ps =>
    cases ps with
    | nil =>
      exfalso
      rw [joinW_single] at hjt
      rw [hjt, hpure x (List.mem_cons_self _ _)] at h
      exact absurd h (by simp)
    | cons y rs =>
      rw [joinW_cons2]
      refine List.mem_append_left _ (List.mem_append_right _ ?_)
      decide

lemma fix_graph_line_fst (l : PyStr) :
    (ComprehensiveMermaidFixer.fix_graph_line l).1 = fixGraphLine1 l := by
  unfold ComprehensiveMermaidFixer.fix_graph_line fixGraphLine1
  dsimp only
  split <;> split <;> split <;> rfl

lemma strip_ne_end_of_mem {x : PyStr} {c : Char} (hc : c ∈ x) (hw : isWs c = false)
    (hne : c ∉ ("end".data : PyStr)) : pyStrip x ≠ ("end".data) := by
  intro hcon
  have hmem2 := mem_strip_of_not_ws hc hw
  rw [hcon] at hmem2
  exact hne hmem2

lemma mem_ite_numericIdSub {c : Char} {x : PyStr} (hc : c ∈ x) :
    c ∈ (if hasNumericId x then numericIdSub x else x) := by
  split
  · exact mem_numericIdSub hc
  · exact hc

lemma fixGraphLine1_end_iff (l : PyStr) :
    (pyStrip (fixGraphLine1 l) = ("end".data)) ↔ (pyStrip l = ("end".data)) := by
  by_cases hend : pyStrip l = ("end".data)
  · have hg1 : containsSub ("-->-->".data) l = false := by
      cases hcon : containsSub ("-->-->".data) l with
      | false => rfl
      | true =>
        exfalso
        have hinf := (containsSub_infix_iff _ _).mp hcon
        have hmem : '-' ∈ l := hinf.subset (by decide)
        have hmem2 := mem_strip_of_not_ws hmem (by decide)
        rw [hend] at hmem2
        exact absurd hmem2 (by decide)
    have hg2 : endsw ("-->".data) (pyStrip l) = false := by
      rw [hend]
      decide
    have hg3 : hasNumericId l = false := by
      cases hcon : hasNumericId l with
      | false => rfl
      | true =>
        exfalso
        obtain ⟨c, hc, hcd⟩ := hasNumericIdGo_digit l none hcon
        have hmem2 := mem_strip_of_not_ws hc (isDigit_not_ws hcd)
        rw [hend] at hmem2
        rw [show ("end".data : PyStr) = ['e', 'n', 'd'] from rfl] at hmem2
        simp at hmem2
        rcases hmem2 with rfl | rfl | rfl <;> exact absurd hcd (by decide)
    have hfix : fixGraphLine1 l = l := by
      simp [fixGraphLine1, hg1, hg2, hg3]
    rw [hfix]
  · constructor
    · intro hcon
      exfalso
      simp only [fixGraphLine1] at hcon
      by_cases hg1 : containsSub ("-->-->".data) l = true
      · rw [if_pos hg1] at hcon
        by_cases hg2 : endsw ("-->".data) (pyStrip l) = true
        · rw [if_pos hg2] at hcon
          have hin : '[' ∈ (" --> [TODO]".data : PyStr) := by decide
          exact strip_ne_end_of_mem (mem_ite_numericIdSub (List.mem_append_right _ hin))
            (by decide) (by decide) hcon
        · rw [if_neg hg2] at hcon
          exact strip_ne_end_of_mem (mem_ite_numericIdSub (dash_mem_repl hg1))
            (by decide) (by decide) hcon
      · rw [if_neg hg1] at hcon
        by_cases hg2 : endsw ("-->".data) (pyStrip l) = true
        · rw [if_pos hg2] at hcon
          have hin : '[' ∈ (" --> [TODO]".data : PyStr) := by decide
          exact strip_ne_end_of_mem (mem_ite_numericIdSub (List.mem_append_right _ hin))
            (by decide) (by decide) hcon
        · rw [if_neg hg2] at hcon
          by_cases hg3 : hasNumericId l = true
          · rw [if_pos hg3] at hcon
            exact strip_ne_end_of_mem
              (numericIdSubGo_bracket l.length none l le_rfl hg3)
              (by decide) (by decide) hcon
          · rw [if_neg hg3] at hcon
            exact hend hcon
    · intro hcon
      exact absurd hcon hend

lemma contains_sub_lower_rstrips (x : PyStr) :
    (("subgraph".data : PyStr) <:+: pyLower (rstripWs (rstripSet ['-', '>'] x))) ↔
      (("subgraph".data : PyStr) <:+: pyLower x) := by
  obtain ⟨w1, hw1, hdec1⟩ := rstripWs_decomp (rstripSet ['-', '>'] x)
  obtain ⟨w2, hw2, hdec2⟩ := rstripSet_decomp ['-', '>'] x
  have hx1 : pyLower (rstripSet ['-', '>'] x) =
      pyLower (rstripWs (rstripSet ['-', '>'] x)) ++ pyLower w1 := by
    conv_lhs => rw [hdec1]
    exact List.map_append _ _ _
  have hx2 : pyLower x = pyLower (rstripSet ['-', '>'] x) ++ pyLower w2 := by
    conv_lhs => rw [hdec2]
    exact List.map_append _ _ _
  have hcw2 : ∀ c ∈ pyLower w2, c ∉ ("subgraph".data : PyStr) := by
    intro c hc
    simp only [pyLower, List.mem_map] at hc
    obtain ⟨d, hd, rfl⟩ := hc
    have hdm := hw2 d hd
    simp at hdm
    rcases hdm with rfl | rfl <;> decide
  have hcw1 : ∀ c ∈ pyLower w1, c ∉ ("subgraph".data : PyStr) := by
    intro c hc
    simp only [pyLower, List.mem_map] at hc
    obtain ⟨d, hd, rfl⟩ := hc
    rw [isWs_toLower (hw1 d hd)]
    exact ws_not_in_subgraph d (hw1 d hd)
  rw [hx2, infix_append_right_disj (by decide) hcw2,
    hx1, infix_append_right_disj (by decide) hcw1]

lemma fixGraphLine1_sub_iff (l : PyStr) :
    (("subgraph".data : PyStr) <:+: pyLower (pyStrip (fixGraphLine1 l))) ↔
      (("subgraph".data : PyStr) <:+: pyLower (pyStrip l)) := by
  rw [contains_pyLower_strip_eq (by decide) ws_not_in_subgraph,
    contains_pyLower_strip_eq (by decide) ws_not_in_subgraph]
  simp only [fixGraphLine1]
  have h3 : ∀ x : PyStr,
      (("subgraph".data : PyStr) <:+:
        pyLower (if hasNumericId x then numericIdSub x else x)) ↔
      (("subgraph".data : PyStr) <:+: pyLower x) := by
    intro x
    split
    · exact Ins_contains_lower (by decide) (by decide) (by decide)
        (numericIdSubGo_ins x.length none x le_rfl)
    · exact Iff.rfl
  rw [h3]
  by_cases hg2 : endsw ("-->".data) (pyStrip l) = true
  · rw [if_pos hg2]
    have hsuffix : ∀ c ∈ pyLower (" --> [TODO]".data), c ∉ ("subgraph".data : PyStr) := by
      decide
    rw [show pyLower (rstripWs (rstripSet ['-', '>']
          (if containsSub ("-->-->".data) l then
            repl ("-->-->".data) ("-->".data) l else l)) ++ " --> [TODO]".data) =
        pyLower (rstripWs (rstripSet ['-', '>']
          (if containsSub ("-->-->".data) l then
            repl ("-->-->".data) ("-->".data) l else l))) ++
          pyLower (" --> [TODO]".data) from List.map_append _ _ _,
      infix_append_right_disj (by decide) hsuffix,
      contains_sub_lower_rstrips]
    by_cases hg1 : containsSub ("-->-->".data) l = true
    · rw [if_pos hg1]
      exact contains_lower_repl_eq (by decide) (by decide) (by decide)
        (by decide) (by decide) l
    · rw [if_neg hg1]
  · rw [if_neg hg2]
    by_cases hg1 : containsSub ("-->-->".data) l = true
    · rw [if_pos hg1]
      exact contains_lower_repl_eq (by decide) (by decide) (by decide)
        (by decide) (by decide) l
    · rw [if_neg hg1]

lemma subgraphLineCount_cons (l : PyStr) (ls : List PyStr) :
    subgraphLineCount (l :: ls) =
      (if containsSub ("subgraph".data) (pyLower (pyStrip l)) then 1 else 0) +
        subgraphLineCount ls := by
  simp only [subgraphLineCount, List.filter_cons]
  split <;> simp <;> omega

lemma endLineCount_cons (l : PyStr) (ls : List PyStr) :
    endLineCount (l :: ls) =
      (if pyStrip l = ("end".data) then 1 else 0) + endLineCount ls := by
  simp only [endLineCount, List.filter_cons]
  split
  · rename_i h
    rw [if_pos (of_decide_eq_true h)]
    simp
    omega
  · rename_i h
    rw [if_neg (of_decide_eq_false (by simpa using h))]
    simp

lemma subcond_false_of_end {l : PyStr} (h : pyStrip l = ("end".data)) :
    containsSub ("subgraph".data) (pyLower (pyStrip l)) = false := by
  rw [h]
  decide

lemma fix_graph_step_eq (st : List PyStr × Nat × Nat × List String) (line : PyStr) :
    ComprehensiveMermaidFixer.fix_graph_step st line =
      (st.1 ++ [(ComprehensiveMermaidFixer.fix_graph_line line).1],
       (if containsSub ("subgraph".data) (pyLower (pyStrip line)) then st.2.1 + 1
        else st.2.1),
       (if containsSub ("subgraph".data) (pyLower (pyStrip line)) then st.2.2.1
        else if pyStrip line = ("end".data) then st.2.2.1 + 1 else st.2.2.1),
       st.2.2.2 ++ (ComprehensiveMermaidFixer.fix_graph_line line).2) := by
  obtain ⟨a, b, c, d⟩ := st
  unfold ComprehensiveMermaidFixer.fix_graph_step
  dsimp only
  by_cases hc1 : containsSub ("subgraph".data) (pyLower (pyStrip line)) = true
  · simp [hc1]
  · rw [Bool.not_eq_true] at hc1
    simp only [hc1, Bool.false_eq_true, if_false]
    by_cases hc2 : pyStrip line = ("end".data)
    · simp [hc2]
    · simp [hc2]

lemma foldl_fix_graph_spec :
    ∀ (lines : List PyStr) (st : List PyStr × Nat × Nat × List String),
      ∃ fx : List String,
        lines.foldl ComprehensiveMermaidFixer.fix_graph_step st =
        (st.1 ++ lines.map (fun l => (ComprehensiveMermaidFixer.fix_graph_line l).1),
         st.2.1 + subgraphLineCount lines,
         st.2.2.1 + endLineCount lines, fx)
  | [], st => ⟨st.2.2.2, by
      obtain ⟨a, b, c, d⟩ := st
      simp [subgraphLineCount, endLineCount]⟩
  | l :: ls, st => by
      rw [List.foldl_cons, fix_graph_step_eq]
      obtain ⟨fx, hfold⟩ := foldl_fix_graph_spec ls
        (st.1 ++ [(ComprehensiveMermaidFixer.fix_graph_line l).1],
         (if containsSub ("subgraph".data) (pyLower (pyStrip l)) then st.2.1 + 1
          else st.2.1),
         (if containsSub ("subgraph".data) (pyLower (pyStrip l)) then st.2.2.1
          else if pyStrip l = ("end".data) then st.2.2.1 + 1 else st.2.2.1),
         st.2.2.2 ++ (ComprehensiveMermaidFixer.fix_graph_line l).2)
      refine ⟨fx, ?_⟩
      rw [hfold]
      dsimp only
      rw [subgraphLineCount_cons, endLineCount_cons]
      by_cases hc1 : containsSub ("subgraph".data) (pyLower (pyStrip l)) = true
      · have hc2 : ¬ (pyStrip l = ("end".data)) := by
          intro he
          rw [subcond_false_of_end he] at hc1
          exact Bool.false_ne_true hc1
        simp only [if_pos hc1, if_neg hc2, Prod.mk.injEq]
        refine ⟨?_, ?_, ?_, trivial⟩
        · simp
        · omega
        · omega
      · by_cases hc2 : pyStrip l = ("end".data)
        · simp only [if_neg hc1, if_pos hc2, Prod.mk.injEq]
          refine ⟨?_, ?_, ?_, trivial⟩
          · simp
          · omega
          · omega
        · simp only [if_neg hc1, if_neg hc2, Prod.mk.injEq]
          refine ⟨?_, ?_, ?_, trivial⟩
          · simp
          · omega
          · omega

lemma fix_graph_fst (lines : List PyStr) :
    (ComprehensiveMermaidFixer.fix_graph lines).1 =
      (lines.map (fun l => (ComprehensiveMermaidFixer.fix_graph_line l).1)) ++
        List.replicate (subgraphLineCount lines - endLineCount lines) ("end".data) := by
  unfold ComprehensiveMermaidFixer.fix_graph
  obtain ⟨fx, hfold⟩ := foldl_fix_graph_spec lines ([], 0, 0, [])
  rw [hfold]
  dsimp only
  simp only [Nat.zero_add, List.nil_append]
  by_cases hgt : subgraphLineCount lines > endLineCount lines
  · rw [if_pos hgt]
  · rw [if_neg hgt]
    rw [show subgraphLineCount lines - endLineCount lines = 0 by omega]
    simp

/-- C4 counterexample: fixing `graph TB` over a stray `end` leaves the content
unchanged — `_fix_graph` only appends `end` lines when subgraphs exceed
`end`s and never removes an extra `end` — so the fixer output has zero
`subgraph` openings but one `end` closing: the counts are unequal. -/
theorem C4_counterexample_extra_end_unbalanced :
    (ComprehensiveMermaidFixer.fix ("graph TB\nend".data)).1 = ("graph TB\nend".data) ∧
    subgraphLineCount (splitLinesPy
        (ComprehensiveMermaidFixer.fix ("graph TB\nend".data)).1) = 0 ∧
    endLineCount (splitLinesPy
        (ComprehensiveMermaidFixer.fix ("graph TB\nend".data)).1) = 1 := by
  decide

/-- C4 (amended): `_fix_graph` never changes the number of `subgraph` openings
and raises the number of `end` closings to `max(subgraphs, ends)` — its
per-line rewrites preserve both counts and it appends exactly the missing
`end`s — so the output counts are equal exactly when the input had at most as
many `end`s as `subgraph`s; an input with extra `end`s stays unbalanced. -/
theorem C4_amended_fix_graph_counts (lines : List PyStr) :
    subgraphLineCount (ComprehensiveMermaidFixer.fix_graph lines).1 =
      subgraphLineCount lines ∧
    endLineCount (ComprehensiveMermaidFixer.fix_graph lines).1 =
      max (subgraphLineCount lines) (endLineCount lines) ∧
    (subgraphLineCount (ComprehensiveMermaidFixer.fix_graph lines).1 =
        endLineCount (ComprehensiveMermaidFixer.fix_graph lines).1 ↔
      endLineCount lines ≤ subgraphLineCount lines) := by
  have happ_sub : ∀ A B : List PyStr,
      subgraphLineCount (A ++ B) = subgraphLineCount A + subgraphLineCount B := by
    intro A B
    unfold subgraphLineCount
    rw [List.filter_append, List.length_append]
  have happ_end : ∀ A B : List PyStr,
      endLineCount (A ++ B) = endLineCount A + endLineCount B := by
    intro A B
    unfold endLineCount
    rw [List.filter_append, List.length_append]
  have hrep_sub : ∀ n, subgraphLineCount (List.replicate n ("end".data)) = 0 := by
    intro n
    unfold subgraphLineCount
    rw [List.filter_replicate, if_neg (by decide)]
    rfl
  have hrep_end : ∀ n, endLineCount (List.replicate n ("end".data)) = n := by
    intro n
    unfold endLineCount
    rw [List.filter_replicate, if_pos (by decide), List.length_replicate]
  have hmap_sub : subgraphLineCount (lines.map (fun l =>
      (ComprehensiveMermaidFixer.fix_graph_line l).1)) = subgraphLineCount lines := by
    unfold subgraphLineCount
    rw [List.filter_map, List.length_map]
    congr 1
    apply List.filter_congr
    intro x hx
    simp only [Function.comp]
    rw [fix_graph_line_fst]
    have hiff := fixGraphLine1_sub_iff x
    rw [← containsSub_infix_iff, ← containsSub_infix_iff] at hiff
    exact Bool.eq_iff_iff.mpr hiff
  have hmap_end : endLineCount (lines.map (fun l =>
      (ComprehensiveMermaidFixer.fix_graph_line l).1)) = endLineCount lines := by
    unfold endLineCount
    rw [List.filter_map, List.length_map]
    congr 1
    apply List.filter_congr
    intro x hx
    simp only [Function.comp]
    have hiff := fixGraphLine1_end_iff x
    rw [← fix_graph_line_fst] at hiff
    exact decide_eq_decide.mpr hiff
  rw [fix_graph_fst, happ_sub, happ_end, hmap_sub, hmap_end, hrep_sub, hrep_end]
  refine ⟨by omega, by omega, by omega⟩

lemma typoTable_pairs_safe :
    ∀ a ∈ ComprehensiveMermaidValidator.typoTable,
      ∀ b ∈ ComprehensiveMermaidValidator.typoTable, replSafe a.1 b.2 = true := by
  decide

lemma typoTable_chars :
    ∀ tc ∈ ComprehensiveMermaidValidator.typoTable,
      tc.1 ≠ [] ∧ tc.2 ≠ [] ∧
      '"' ∉ tc.1 ∧ '\\' ∉ tc.1 ∧ '"' ∉ tc.2 ∧ '\\' ∉ tc.2 ∧
      (∀ c ∈ tc.1, isWs c = false) ∧ (∀ c ∈ tc.2, isWs c = false) ∧
      '%' ∉ tc.1 ∧ '%' ∉ tc.2 := by
  decide

lemma typo_step_fst (st : PyStr × List String) (tc : PyStr × PyStr) :
    (ComprehensiveMermaidFixer.typo_step st tc).1 =
      (if containsSub tc.1 st.1 then repl tc.1 tc.2 st.1 else st.1) := by
  unfold ComprehensiveMermaidFixer.typo_step
  split <;> rfl

lemma typoFold_fst : ∀ (tbl : List (PyStr × PyStr)) (st : PyStr × List String),
    (tbl.foldl ComprehensiveMermaidFixer.typo_step st).1 = typoFold1 tbl st.1
  | [], st => rfl
  | tc :: tbl, st => by
      rw [show typoFold1 (tc :: tbl) st.1 = typoFold1 tbl
          (if containsSub tc.1 st.1 then repl tc.1 tc.2 st.1 else st.1) from rfl,
        List.foldl_cons, typoFold_fst tbl, typo_step_fst]

lemma typoFold_id_of_free : ∀ (tbl : List (PyStr × PyStr)) (st : PyStr × List String),
    (∀ tc ∈ tbl, containsSub tc.1 st.1 = false) →
      tbl.foldl ComprehensiveMermaidFixer.typo_step st = st
  | [], st, _ => rfl
  | tc :: tbl, st, hfree => by
      rw [List.foldl_cons,
        show ComprehensiveMermaidFixer.typo_step st tc = st from by
          unfold ComprehensiveMermaidFixer.typo_step
          rw [if_neg (fun hc => by
            rw [hfree tc (List.mem_cons_self _ _)] at hc
            exact Bool.false_ne_true hc)]]
      exact typoFold_id_of_free tbl st (fun b hbm => hfree b (List.mem_cons_of_mem _ hbm))

lemma typoFold1_absent (p : PyStr) (hp : p ≠ []) :
    ∀ tbl : List (PyStr × PyStr),
      (∀ b ∈ tbl, b.1 ≠ [] ∧ b.2 ≠ [] ∧ replSafe p b.2 = true) →
      ∀ s : PyStr, containsSub p s = false → containsSub p (typoFold1 tbl s) = false
  | [], _, s, hs => hs
  | tc :: tbl, hb, s, hs => by
      rw [show typoFold1 (tc :: tbl) s = typoFold1 tbl
          (if containsSub tc.1 s then repl tc.1 tc.2 s else s) from rfl]
      apply typoFold1_absent p hp tbl (fun b hbm => hb b (List.mem_cons_of_mem _ hbm))
      split
      · exact repl_no_other hp (hb tc (List.mem_cons_self _ _)).1
          (hb tc (List.mem_cons_self _ _)).2.1
          (hb tc (List.mem_cons_self _ _)).2.2 s hs
      · exact hs

lemma typoFold1_free :
    ∀ tbl : List (PyStr × PyStr),
      (∀ a ∈ tbl, a.1 ≠ []) →
      (∀ a ∈ tbl, ∀ b ∈ tbl, b.2 ≠ [] ∧ replSafe a.1 b.2 = true) →
      ∀ s : PyStr, ∀ tc ∈ tbl, containsSub tc.1 (typoFold1 tbl s) = false
  | [], _, _, s, tc, htc => by simp at htc
  | tc0 :: tbl, hne, hsafe, s, tc, htc => by
      rw [show typoFold1 (tc0 :: tbl) s = typoFold1 tbl
          (if containsSub tc0.1 s then repl tc0.1 tc0.2 s else s) from rfl]
      rcases List.mem_cons.mp htc with rfl | htc
      · apply typoFold1_absent tc.1 (hne tc (List.mem_cons_self _ _)) tbl
          (fun b hbm => ⟨hne b (List.mem_cons_of_mem _ hbm),
            (hsafe tc (List.mem_cons_self _ _) b (List.mem_cons_of_mem _ hbm)).1,
            (hsafe tc (List.mem_cons_self _ _) b (List.mem_cons_of_mem _ hbm)).2⟩)
        split
        · exact repl_no_self (hne tc (List.mem_cons_self _ _))
            (hsafe tc (List.mem_cons_self _ _) tc (List.mem_cons_self _ _)).1
            (hsafe tc (List.mem_cons_self _ _) tc (List.mem_cons_self _ _)).2 s
        · rename_i hguard
          rwa [Bool.not_eq_true] at hguard
      · exact typoFold1_free tbl
          (fun a ham => hne a (List.mem_cons_of_mem _ ham))
          (fun a ham b hbm => hsafe a (List.mem_cons_of_mem _ ham) b
            (List.mem_cons_of_mem _ hbm))
          (if containsSub tc0.1 s then repl tc0.1 tc0.2 s else s) tc htc

lemma typoFold1_dq :
    ∀ tbl : List (PyStr × PyStr),
      (∀ b ∈ tbl, b.1 ≠ [] ∧ b.2 ≠ [] ∧ '"' ∉ b.1 ∧ '\\' ∉ b.1 ∧
        '"' ∉ b.2 ∧ '\\' ∉ b.2) →
      ∀ s : PyStr, unescapedDq (typoFold1 tbl s) = unescapedDq s
  | [], _, s => rfl
  | tc :: tbl, hb, s => by
      rw [show typoFold1 (tc :: tbl) s = typoFold1 tbl
          (if containsSub tc.1 s then repl tc.1 tc.2 s else s) from rfl,
        typoFold1_dq tbl (fun b hbm => hb b (List.mem_cons_of_mem _ hbm))]
      split
      · obtain ⟨h1, h2, h3, h4, h5, h6⟩ := hb tc (List.mem_cons_self _ _)
        exact unescapedDq_repl_eq h1 h2 h3 h4 h5 h6 s
      · rfl

lemma typoFold1_comment :
    ∀ tbl : List (PyStr × PyStr),
      (∀ b ∈ tbl, b.1 ≠ [] ∧ b.2 ≠ [] ∧ (∀ c ∈ b.1, isWs c = false) ∧
        (∀ c ∈ b.2, isWs c = false) ∧ '%' ∉ b.1 ∧ '%' ∉ b.2) →
      ∀ s : PyStr, startsw ("%%".data) (pyStrip (typoFold1 tbl s)) =
        startsw ("%%".data) (pyStrip s)
  | [], _, s => rfl
  | tc :: tbl, hb, s => by
      rw [show typoFold1 (tc :: tbl) s = typoFold1 tbl
          (if containsSub tc.1 s then repl tc.1 tc.2 s else s) from rfl,
        typoFold1_comment tbl (fun b hbm => hb b (List.mem_cons_of_mem _ hbm))]
      split
      · obtain ⟨h1, h2, h3, h4, h5, h6⟩ := hb tc (List.mem_cons_self _ _)
        exact comment_repl_eq h1 h2 h3 h4 h5 h6 s
      · rfl

lemma apply_common_line_fst (l : PyStr) :
    (ComprehensiveMermaidFixer.apply_common_line l).1 =
      typoFold1 ComprehensiveMermaidValidator.typoTable (quotePhase l) := by
  unfold ComprehensiveMermaidFixer.apply_common_line
  dsimp only
  split
  · rename_i h1
    split
    · rename_i h2
      rw [typoFold_fst,
        show quotePhase l = l ++ ['"'] from by
          unfold quotePhase
          rw [if_pos ⟨h1, h2⟩]]
    · rename_i h2
      rw [typoFold_fst,
        show quotePhase l = l from by
          unfold quotePhase
          rw [if_neg (fun hc => h2 hc.2)]]
  · rename_i h1
    rw [typoFold_fst,
      show quotePhase l = l from by
        unfold quotePhase
        rw [if_neg (fun hc => h1 hc.1)]]

lemma quotePhase_comment (l : PyStr) :
    startsw ("%%".data) (pyStrip (quotePhase l)) = startsw ("%%".data) (pyStrip l) := by
  unfold quotePhase
  split
  · exact comment_append_quote l
  · rfl

lemma quotePhase_even {l : PyStr} (h : quoteFixHazard l = false)
    (hnc : startsw ("%%".data) (pyStrip l) = false) :
    unescapedDq (quotePhase l) % 2 = 0 := by
  unfold quotePhase
  split
  · rename_i hcnd
    rw [unescapedDq_append_quote]
    have hh := h
    unfold quoteFixHazard at hh
    rw [hnc] at hh
    simp only [Bool.not_false, Bool.true_and, Bool.and_eq_false_iff] at hh
    rcases hh with hh | hh
    · exfalso
      apply hcnd.2
      simpa using hh
    · rw [if_neg (by simpa using hh)]
      have hodd := hcnd.2
      omega
  · rename_i hcnd
    by_contra hodd
    exact hcnd ⟨by rw [hnc]; simp, hodd⟩

lemma apply_common_line_id {x : PyStr}
    (hfree : ∀ tc ∈ ComprehensiveMermaidValidator.typoTable,
      containsSub tc.1 x = false)
    (hquote : startsw ("%%".data) (pyStrip x) = true ∨ unescapedDq x % 2 = 0) :
    ComprehensiveMermaidFixer.apply_common_line x = (x, []) := by
  unfold ComprehensiveMermaidFixer.apply_common_line
  dsimp only
  rcases hquote with hc | hc
  · rw [if_neg (fun hcon => hcon hc)]
    exact typoFold_id_of_free _ _ hfree
  · by_cases hcm : startsw ("%%".data) (pyStrip x) = true
    · rw [if_neg (fun hcon => hcon hcm)]
      exact typoFold_id_of_free _ _ hfree
    · rw [if_pos hcm, if_neg (fun hcon => hcon hc)]
      exact typoFold_id_of_free _ _ hfree

lemma apply_common_line_stable {l : PyStr} (h : quoteFixHazard l = false) :
    ComprehensiveMermaidFixer.apply_common_line
        ((ComprehensiveMermaidFixer.apply_common_line l).1) =
      ((ComprehensiveMermaidFixer.apply_common_line l).1, []) := by
  have hq := apply_common_line_fst l
  have htblc := typoTable_chars
  have hdq : unescapedDq (ComprehensiveMermaidFixer.apply_common_line l).1 =
      unescapedDq (quotePhase l) := by
    rw [hq]
    exact typoFold1_dq _ (fun b hbm => ⟨(htblc b hbm).1, (htblc b hbm).2.1,
      (htblc b hbm).2.2.1, (htblc b hbm).2.2.2.1, (htblc b hbm).2.2.2.2.1,
      (htblc b hbm).2.2.2.2.2.1⟩) _
  have hcmt : startsw ("%%".data)
        (pyStrip (ComprehensiveMermaidFixer.apply_common_line l).1) =
      startsw ("%%".data) (pyStrip l) := by
    rw [hq, typoFold1_comment _ (fun b hbm => ⟨(htblc b hbm).1, (htblc b hbm).2.1,
      (htblc b hbm).2.2.2.2.2.2.1, (htblc b hbm).2.2.2.2.2.2.2.1,
      (htblc b hbm).2.2.2.2.2.2.2.2.1, (htblc b hbm).2.2.2.2.2.2.2.2.2⟩) _]
    exact quotePhase_comment l
  have hfree : ∀ tc ∈ ComprehensiveMermaidValidator.typoTable,
      containsSub tc.1 (ComprehensiveMermaidFixer.apply_common_line l).1 = false := by
    intro tc htc
    rw [hq]
    exact typoFold1_free _ (fun a ham => (htblc a ham).1)
      (fun a ham b hbm => ⟨(htblc b hbm).2.1, typoTable_pairs_safe a ham b hbm⟩)
      _ tc htc
  by_cases hc2m : startsw ("%%".data)
      (pyStrip (ComprehensiveMermaidFixer.apply_common_line l).1) = true
  · exact apply_common_line_id hfree (Or.inl hc2m)
  · refine apply_common_line_id hfree (Or.inr ?_)
    rw [hdq]
    apply quotePhase_even h
    rw [← hcmt]
    rwa [Bool.not_eq_true] at hc2m

lemma acf_foldl : ∀ (lines : List PyStr) (a : List PyStr) (f : List String),
    lines.foldl ComprehensiveMermaidFixer.acf_step (a, f) =
      (a ++ lines.map (fun l => (ComprehensiveMermaidFixer.apply_common_line l).1),
       f ++ (lines.map (fun l =>
          (ComprehensiveMermaidFixer.apply_common_line l).2)).flatten)
  | [], a, f => by simp
  | l :: ls, a, f => by
      rw [List.foldl_cons,
        show ComprehensiveMermaidFixer.acf_step (a, f) l =
          (a ++ [(ComprehensiveMermaidFixer.apply_common_line l).1],
           f ++ (ComprehensiveMermaidFixer.apply_common_line l).2) from rfl,
        acf_foldl ls]
      simp

/-- C5 counterexample: on the single line `"\` — one unescaped quote, ending
in a backslash — the quote appended by `_apply_common_fixes` is itself
escaped, so a second run appends another quote: running the pass twice does
not give the same lines as running it once. -/
theorem C5_counterexample_trailing_backslash :
    (ComprehensiveMermaidFixer.apply_common_fixes
        ((ComprehensiveMermaidFixer.apply_common_fixes [['"', '\\']]).1)).1 ≠
      (ComprehensiveMermaidFixer.apply_common_fixes [['"', '\\']]).1 := by
  decide

lemma stable_map_acl :
    ∀ lines : List PyStr, (∀ l ∈ lines, quoteFixHazard l = false) →
      (lines.map (fun l => (ComprehensiveMermaidFixer.apply_common_line l).1)).map
          (fun l => (ComprehensiveMermaidFixer.apply_common_line l).1) =
        lines.map (fun l => (ComprehensiveMermaidFixer.apply_common_line l).1) ∧
      (lines.map (fun l => (ComprehensiveMermaidFixer.apply_common_line l).1)).map
          (fun l => (ComprehensiveMermaidFixer.apply_common_line l).2) =
        lines.map (fun _ => ([] : List String))
  | [], _ => by
      refine ⟨?_, ?_⟩ <;> simp only [List.map_nil]
  | l :: ls, h => by
      obtain ⟨ih1, ih2⟩ := stable_map_acl ls (fun x hx => h x (List.mem_cons_of_mem _ hx))
      simp only [List.map_cons]
      refine ⟨?_, ?_⟩
      · rw [ih1, apply_common_line_stable (h l (List.mem_cons_self _ _))]
      · rw [ih2, apply_common_line_stable (h l (List.mem_cons_self _ _))]

lemma flatten_nil_map (lines : List PyStr) :
    (lines.map (fun _ => ([] : List String))).flatten = [] := by
  induction lines with
  | nil => rfl
  | cons l ls ih => simpa using ih

/-- C5 (amended): `_apply_common_fixes` is idempotent on every input whose
lines avoid the one hazard — a non-comment line with an odd
unescaped-double-quote count that ends in a backslash; for such inputs a
second run returns the first run's lines unchanged and records no fixes. -/
theorem C5_amended_common_fixes_idempotent (lines : List PyStr)
    (h : ∀ l ∈ lines, quoteFixHazard l = false) :
    ComprehensiveMermaidFixer.apply_common_fixes
        (ComprehensiveMermaidFixer.apply_common_fixes lines).1 =
      ((ComprehensiveMermaidFixer.apply_common_fixes lines).1, []) := by
  have h1 : (ComprehensiveMermaidFixer.apply_common_fixes lines).1 =
      lines.map (fun l => (ComprehensiveMermaidFixer.apply_common_line l).1) := by
    unfold ComprehensiveMermaidFixer.apply_common_fixes
    rw [acf_foldl]
    simp
  obtain ⟨hs1, hs2⟩ := stable_map_acl lines h
  rw [h1]
  unfold ComprehensiveMermaidFixer.apply_common_fixes
  rw [acf_foldl, hs1, hs2, flatten_nil_map]
  simp

/-- C5 witness: the idempotence law applied to a line that does get a quote
appended (odd quote count, no trailing backslash). -/
theorem C5_amended_common_fixes_idempotent_witness :
    ComprehensiveMermaidFixer.apply_common_fixes
        (ComprehensiveMermaidFixer.apply_common_fixes [['"']]).1 =
      ((ComprehensiveMermaidFixer.apply_common_fixes [['"']]).1, []) :=
  C5_amended_common_fixes_idempotent [['"']] (by decide)
